import Mathlib

/-!
Verification development for the chassis2023 repository.

Shallow embedding of the program's state and operations:
  * `snowflakes` embeds src/snowflakes.py (named monotonic ID sequences).
  * `chassis2023` embeds src/chassis2023.py (lock guard, logging and ring
    buffer, run-module census, symbol interlink, stage runner, and the
    worklist-based module-intake engine).

Python dicts are modelled as association lists with first-match lookup and
in-place overwrite; Python object identity is modelled by structural
equality on records carrying an `id` field; environment effects that the
claims do not touch (wall-clock timestamps, `inspect.stack()` call-site
capture, the actual machinery of `importlib`) are abstracted: module
resolution is a `World` of lookup functions, and log entries keep the
severity/code/title/message payload.
-/

set_option maxHeartbeats 1000000

namespace snowflakes

/-- POLICY values from snowflakes.py: SESSION or EXPORTED. -/
inductive Policy where
  | SESSION
  | EXPORTED
deriving DecidableEq

/-- One entry of the snowflake `db` list: the dict
{NAME, DEFAULT, POLICY, NEXT}, where NEXT is absent until first written. -/
structure Snowflake where
  name : String
  default : Int
  policy : Policy
  next : Option Int
deriving DecidableEq

/-- The `byname` dict: `byname[name]` is the entry created by the latest
`define` with that NAME, i.e. the last element of `db` carrying it. -/
def byname_find (db : List Snowflake) (n : String) : Option Snowflake :=
  db.reverse.find? (fun D => D.name == n)

/-- Replace the first entry with the given name (helper for mutating the
entry that `byname` designates). -/
def updateFirst (n : String) (f : Snowflake → Snowflake) :
    List Snowflake → List Snowflake
  | [] => []
  | D :: rest => if D.name == n then f D :: rest else D :: updateFirst n f rest

/-- Mutate the entry `byname[n]` in place: the last element of `db` named
`n` (Python mutates the shared dict object, visible through `db` too). -/
def updateByname (db : List Snowflake) (n : String) (f : Snowflake → Snowflake) :
    List Snowflake :=
  (updateFirst n f db.reverse).reverse

/-- Models `D.get(NEXT, D[DEFAULT])`: the sequence's effective pointer. -/
def pointer (D : Snowflake) : Int :=
  D.next.getD D.default

/-- Models `next(name)` from snowflakes.py: read the pointer (lazily the DEFAULT),
store pointer+1, return the read value.  `byname[name]` raises KeyError for
an undefined name, modelled as `none`. -/
def next (n : String) (db : List Snowflake) : Option (Int × List Snowflake) :=
  match byname_find db n with
  | none => none
  | some D =>
    let v := pointer D
    some (v, updateByname db n (fun E => { E with next := some (v + 1) }))

/-- Iterate `next(n)` `k` times, collecting the returned values in call
order. -/
def nextN (n : String) (k : Nat) (db : List Snowflake) :
    Option (List Int × List Snowflake) :=
  match k with
  | 0 => some ([], db)
  | Nat.succ k2 =>
    match next n db with
    | none => none
    | some (v, db2) =>
      match nextN n k2 db2 with
      | none => none
      | some (vs, db3) => some (v :: vs, db3)

/-- A Python-dict of ints: association list, first-match lookup. -/
def dictGet (j : List (String × Int)) (k : String) : Option Int :=
  (j.find? (fun p => p.1 == k)).map Prod.snd

/-- Python dict assignment: overwrite in place if the key is present,
append otherwise. -/
def dictSet : List (String × Int) → String → Int → List (String × Int)
  | [], k, v => [(k, v)]
  | p :: rest, k, v => if p.1 == k then (k, v) :: rest else p :: dictSet rest k v

/-- Models `export_to_jsondict()` from snowflakes.py: collect name -> effective
pointer over every EXPORTED entry of `db`, in `db` order, later entries
overwriting earlier ones of the same name. -/
def export_to_jsondict (db : List Snowflake) : List (String × Int) :=
  db.foldl
    (fun R D => if D.policy = Policy.EXPORTED then dictSet R D.name (pointer D) else R)
    []

/-- Models `import_from_jsondict(json_D)` from snowflakes.py: for each EXPORTED
entry of `db` whose name is a key of the dict, set NEXT to the dict's
value; everything else is untouched. -/
def import_from_jsondict (j : List (String × Int)) (db : List Snowflake) :
    List Snowflake :=
  db.map (fun D =>
    if D.policy = Policy.EXPORTED ∧ (dictGet j D.name).isSome
    then { D with next := dictGet j D.name }
    else D)

example :
    (nextN "a" 3 [⟨"a", 5, Policy.SESSION, none⟩]).map Prod.fst = some [5, 6, 7] := by
  decide

example :
    export_to_jsondict
      [⟨"a", 5, Policy.EXPORTED, some 9⟩, ⟨"b", 0, Policy.SESSION, some 2⟩] =
    [("a", 9)] := by
  decide

lemma find?_updateFirst (n : String) (f : Snowflake → Snowflake)
    (hf : ∀ E, (f E).name = E.name) :
    ∀ L : List Snowflake,
      (updateFirst n f L).find? (fun E => E.name == n) =
        (L.find? (fun E => E.name == n)).map f
  | [] => rfl
  | D :: rest => by
    by_cases h : D.name = n
    · have hb : (D.name == n) = true := by simp [h]
      simp [updateFirst, List.find?, hb, hf]
    · have hb : (D.name == n) = false := by simp [h]
      simp [updateFirst, List.find?, hb, find?_updateFirst n f hf rest]

lemma byname_find_updateByname (db : List Snowflake) (n : String)
    (f : Snowflake → Snowflake) (hf : ∀ E, (f E).name = E.name) :
    byname_find (updateByname db n f) n = (byname_find db n).map f := by
  unfold byname_find updateByname
  rw [List.reverse_reverse]
  exact find?_updateFirst n f hf db.reverse

lemma next_step (db : List Snowflake) (n : String) (D : Snowflake)
    (h : byname_find db n = some D) :
    next n db = some (pointer D,
      updateByname db n (fun E => { E with next := some (pointer D + 1) })) ∧
    byname_find
        (updateByname db n (fun E => { E with next := some (pointer D + 1) })) n
      = some { D with next := some (pointer D + 1) } := by
  constructor
  · simp [next, h]
  · rw [byname_find_updateByname db n
      (fun E => { E with next := some (pointer D + 1) }) (fun E => rfl), h]
    rfl

lemma range_succ_shift (p : Int) (k : Nat) :
    p :: (List.range k).map (fun i : Nat => (p + 1) + (i : Int)) =
      (List.range (k + 1)).map (fun i : Nat => p + (i : Int)) := by
  rw [List.range_succ_eq_map, List.map_cons, List.map_map]
  have h0 : p + ((0 : Nat) : Int) = p := by push_cast; ring
  have hfun : ((fun i : Nat => p + (i : Int)) ∘ Nat.succ) =
      (fun i : Nat => (p + 1) + (i : Int)) := by
    funext i
    simp only [Function.comp]
    push_cast
    ring
  rw [h0, hfun]

lemma nextN_stream (n : String) :
    ∀ (k : Nat) (db : List Snowflake) (D : Snowflake),
      byname_find db n = some D →
      (nextN n k db).map Prod.fst =
        some ((List.range k).map (fun i : Nat => pointer D + (i : Int)))
  | 0, _, _, _ => by simp [nextN]
  | Nat.succ k, db, D, h => by
    obtain ⟨h1, h2⟩ := next_step db n D h
    have ih := nextN_stream n k _ _ h2
    have hptr : pointer { D with next := some (pointer D + 1) } = pointer D + 1 := rfl
    rw [hptr] at ih
    cases hh : nextN n k (updateByname db n
        (fun E => { E with next := some (pointer D + 1) })) with
    | none =>
      rw [hh] at ih
      simp at ih
    | some p =>
      obtain ⟨vs, db3⟩ := p
      rw [hh] at ih
      simp only [Option.map_some'] at ih
      have hvs : vs = (List.range k).map (fun i : Nat => (pointer D + 1) + (i : Int)) :=
        Option.some.inj ih
      simp only [nextN, h1, hh, Option.map_some']
      rw [hvs, range_succ_shift]

/-- C7: for a sequence defined with default `d` and not yet touched by
`next`, `reset`, or `import` (its NEXT pointer is unset), the k-th call to
`next(name)` returns `d + k - 1`: the k calls return `d, d+1, ..., d+k-1`
in call order, with no value ever returned twice. -/
theorem C7_snowflake_next_sequence (db : List Snowflake) (n : String)
    (D : Snowflake) (h : byname_find db n = some D) (h2 : D.next = none)
    (k : Nat) (hk : 1 ≤ k) :
    (nextN n k db).map Prod.fst =
      some ((List.range k).map (fun i : Nat => D.default + (i : Int))) ∧
    ((List.range k).map (fun i : Nat => D.default + (i : Int))).getLast? =
      some (D.default + ((k : Int) - 1)) ∧
    ((List.range k).map (fun i : Nat => D.default + (i : Int))).Nodup := by
  have hp : pointer D = D.default := by simp [pointer, h2]
  refine ⟨?_, ?_, ?_⟩
  · have := nextN_stream n k db D h
    rw [hp] at this
    exact this
  · obtain ⟨m, rfl⟩ : ∃ m, k = m + 1 := ⟨k - 1, (Nat.succ_pred_eq_of_pos hk).symm⟩
    rw [List.range_succ, List.map_append, List.map_cons, List.map_nil,
      List.getLast?_concat]
    have : D.default + ((m : Nat) : Int) = D.default + (((m + 1 : Nat) : Int) - 1) := by
      push_cast
      ring
    rw [this]
  · apply List.Nodup.map
    · intro a b hab
      have hab2 : ((a : Nat) : Int) = ((b : Nat) : Int) := by
        exact add_left_cancel hab
      exact_mod_cast hab2
    · exact List.nodup_range k

/-- Concrete state for exercising C7. -/
def c7db : List Snowflake := [⟨"a", 5, Policy.SESSION, none⟩]

lemma dictGet_cons_true {p : String × Int} {L : List (String × Int)} {k : String}
    (hb : (p.1 == k) = true) : dictGet (p :: L) k = some p.2 := by
  simp [dictGet, List.find?, hb]

lemma dictGet_cons_false {p : String × Int} {L : List (String × Int)} {k : String}
    (hb : (p.1 == k) = false) : dictGet (p :: L) k = dictGet L k := by
  simp [dictGet, List.find?, hb]

lemma dictGet_dictSet_self (k : String) (v : Int) :
    ∀ R : List (String × Int), dictGet (dictSet R k v) k = some v
  | [] => by simp [dictSet, dictGet, List.find?]
  | p :: rest => by
    by_cases h : p.1 = k
    · have hb : (p.1 == k) = true := by simp [h]
      have hset : dictSet (p :: rest) k v = (k, v) :: rest := by
        simp [dictSet, hb]
      rw [hset, dictGet_cons_true (by simp)]
    · have hb : (p.1 == k) = false := by simp [h]
      have hset : dictSet (p :: rest) k v = p :: dictSet rest k v := by
        simp [dictSet, hb]
      rw [hset, dictGet_cons_false hb, dictGet_dictSet_self k v rest]

lemma dictGet_dictSet_ne (k m : String) (v : Int) (hkm : k ≠ m) :
    ∀ R : List (String × Int), dictGet (dictSet R k v) m = dictGet R m
  | [] => by
    have hb : (k == m) = false := by simp [hkm]
    simp [dictSet, dictGet, List.find?, hb]
  | p :: rest => by
    by_cases h : p.1 = k
    · have hb : (p.1 == k) = true := by simp [h]
      have hset : dictSet (p :: rest) k v = (k, v) :: rest := by
        simp [dictSet, hb]
      have hb2 : ((k, v).1 == m) = false := by simp [hkm]
      have hb3 : (p.1 == m) = false := by simp [h, hkm]
      rw [hset, dictGet_cons_false hb2, dictGet_cons_false hb3]
    · have hb : (p.1 == k) = false := by simp [h]
      have hset : dictSet (p :: rest) k v = p :: dictSet rest k v := by
        simp [dictSet, hb]
      cases hpm : (p.1 == m) with
      | true => rw [hset, dictGet_cons_true hpm, dictGet_cons_true hpm]
      | false =>
        rw [hset, dictGet_cons_false hpm, dictGet_cons_false hpm,
          dictGet_dictSet_ne k m v hkm rest]

/-- An entry that `export_to_jsondict` would record under name `m`. -/
def isExportedNamed (m : String) (D : Snowflake) : Bool :=
  decide (D.policy = Policy.EXPORTED) && (D.name == m)

lemma dictGet_export_aux (m : String) :
    ∀ (db : List Snowflake) (R : List (String × Int)),
      dictGet
        (db.foldl (fun R D =>
          if D.policy = Policy.EXPORTED then dictSet R D.name (pointer D) else R) R)
        m =
      (match db.reverse.find? (isExportedNamed m) with
       | some D => some (pointer D)
       | none => dictGet R m)
  | [], R => by simp [List.find?]
  | D :: rest, R => by
    rw [List.foldl_cons, dictGet_export_aux m rest, List.reverse_cons]
    cases hfind : rest.reverse.find? (isExportedNamed m) with
    | some E =>
      rw [List.find?_append, hfind]
      rfl
    | none =>
      rw [List.find?_append, hfind]
      simp only [Option.none_orElse]
      by_cases hpol : D.policy = Policy.EXPORTED
      · by_cases hnm : D.name = m
        · have hb : isExportedNamed m D = true := by
            simp [isExportedNamed, hpol, hnm]
          rw [if_pos hpol, hnm]
          simp [List.find?, hb, dictGet_dictSet_self]
        · have hb : isExportedNamed m D = false := by
            simp [isExportedNamed, hnm]
          simp [List.find?, hb, if_pos hpol, dictGet_dictSet_ne D.name m (pointer D) hnm]
      · have hb : isExportedNamed m D = false := by
          simp [isExportedNamed, hpol]
        simp [List.find?, hb, if_neg hpol]

lemma find?_isExportedNamed_of_name (m : String) (D : Snowflake)
    (hpol : D.policy = Policy.EXPORTED) :
    ∀ L : List Snowflake, L.find? (fun E => E.name == m) = some D →
      L.find? (isExportedNamed m) = some D
  | [], h => by simp [List.find?] at h
  | E :: rest, h => by
    cases hb : (E.name == m) with
    | true =>
      have hED : E = D := by
        simpa [List.find?, hb] using h
      subst hED
      have hq : isExportedNamed m E = true := by simp [isExportedNamed, hpol, hb]
      simp [List.find?, hq]
    | false =>
      have hq : isExportedNamed m E = false := by simp [isExportedNamed, hb]
      have hrest : rest.find? (fun E => E.name == m) = some D := by
        simpa [List.find?, hb] using h
      simpa [List.find?, hq] using find?_isExportedNamed_of_name m D hpol rest hrest

lemma find?_name_map (f : Snowflake → Snowflake)
    (hf : ∀ D, (f D).name = D.name) (n : String) :
    ∀ L : List Snowflake,
      (L.map f).find? (fun D => D.name == n) =
        (L.find? (fun D => D.name == n)).map f
  | [] => rfl
  | D :: rest => by
    cases hb : (D.name == n) with
    | true =>
      have hb2 : ((f D).name == n) = true := by rw [hf]; exact hb
      simp [List.find?, hb, hb2]
    | false =>
      have hb2 : ((f D).name == n) = false := by rw [hf]; exact hb
      simp [List.find?, hb, hb2, find?_name_map f hf n rest]

lemma byname_find_map (db : List Snowflake) (f : Snowflake → Snowflake)
    (hf : ∀ D, (f D).name = D.name) (n : String) :
    byname_find (db.map f) n = (byname_find db n).map f := by
  unfold byname_find
  rw [← List.map_reverse]
  exact find?_name_map f hf n db.reverse

lemma find?_filter_of_false {α : Type} (p q : α → Bool)
    (h : ∀ x, q x = false → p x = false) :
    ∀ L : List α, (L.filter q).find? p = L.find? p
  | [] => rfl
  | x :: rest => by
    cases hq : q x with
    | true =>
      cases hp : p x with
      | true => simp [List.filter, List.find?, hq, hp]
      | false => simp [List.filter, List.find?, hq, hp, find?_filter_of_false p q h rest]
    | false =>
      have hp : p x = false := h x hq
      simp [List.filter, List.find?, hq, hp, find?_filter_of_false p q h rest]

/-- The per-entry action of `import_from_jsondict`. -/
def importEntry (j : List (String × Int)) (D : Snowflake) : Snowflake :=
  if D.policy = Policy.EXPORTED ∧ (dictGet j D.name).isSome
  then { D with next := dictGet j D.name }
  else D

lemma import_from_jsondict_eq_map (j : List (String × Int)) (db : List Snowflake) :
    import_from_jsondict j db = db.map (importEntry j) := rfl

lemma importEntry_name (j : List (String × Int)) (D : Snowflake) :
    (importEntry j D).name = D.name := by
  unfold importEntry
  split
  · rfl
  · rfl

/-- C8: re-importing the mapping produced by `export_to_jsondict` leaves the
effective pointer that `byname` designates for every name unchanged (so
subsequent `next(name)` calls behave as before the round trip), leaves every
SESSION-policy entry entirely untouched, and `import_from_jsondict` silently
ignores keys of the mapping that name no defined sequence. -/
theorem C8_export_import_roundtrip (db : List Snowflake) :
    (∀ n : String,
        (byname_find (import_from_jsondict (export_to_jsondict db) db) n).map pointer
          = (byname_find db n).map pointer) ∧
    (∀ (i : Nat) (D : Snowflake), db[i]? = some D → D.policy = Policy.SESSION →
        (import_from_jsondict (export_to_jsondict db) db)[i]? = some D) ∧
    (∀ (j : List (String × Int)) (kx : String), (∀ D ∈ db, D.name ≠ kx) →
        import_from_jsondict j db
          = import_from_jsondict (j.filter (fun p => p.1 != kx)) db) := by
  refine ⟨?_, ?_, ?_⟩
  · intro n
    rw [import_from_jsondict_eq_map,
      byname_find_map db (importEntry (export_to_jsondict db)) (importEntry_name _) n]
    cases h : byname_find db n with
    | none => rfl
    | some D =>
      simp only [Option.map_some']
      congr 1
      have hname : D.name = n := by
        have := List.find?_some h
        exact eq_of_beq this
      by_cases hpol : D.policy = Policy.EXPORTED
      · have hget : dictGet (export_to_jsondict db) n = some (pointer D) := by
          have hx := dictGet_export_aux n db []
          rw [find?_isExportedNamed_of_name n D hpol db.reverse h] at hx
          exact hx
        unfold importEntry
        rw [hname, hget, if_pos ⟨hpol, rfl⟩]
        simp [pointer]
      · unfold importEntry
        rw [if_neg]
        intro hc
        exact hpol hc.1
  · intro i D hi hpol
    rw [import_from_jsondict_eq_map, List.getElem?_map, hi, Option.map_some']
    congr 1
    unfold importEntry
    rw [if_neg]
    intro hc
    rw [hpol] at hc
    exact Policy.noConfusion hc.1
  · intro j kx hk
    rw [import_from_jsondict_eq_map, import_from_jsondict_eq_map]
    apply List.map_congr_left
    intro D hD
    have hne : D.name ≠ kx := hk D hD
    have hpq : ∀ x : String × Int, (x.1 != kx) = false → (x.1 == D.name) = false := by
      intro x hx
      have hxk : x.1 = kx := by
        simpa using hx
      subst hxk
      exact beq_eq_false_iff_ne.mpr (fun hc => hne hc.symm)
    have hgets : dictGet (j.filter (fun p => p.1 != kx)) D.name = dictGet j D.name := by
      unfold dictGet
      rw [find?_filter_of_false (fun p : String × Int => p.1 == D.name)
        (fun p : String × Int => p.1 != kx) hpq j]
    unfold importEntry
    rw [hgets]

/-- Concrete snowflake db for exercising C8:  one EXPORTED entry already
advanced, one SESSION entry, one EXPORTED entry still on its default. -/
def c8db : List Snowflake :=
  [⟨"a", 5, Policy.EXPORTED, some 9⟩,
   ⟨"b", 0, Policy.SESSION, some 2⟩,
   ⟨"c", 7, Policy.EXPORTED, none⟩]

/-- Concrete mapping whose key "zz" names no defined sequence. -/
def c8j : List (String × Int) := [("a", 3), ("zz", 100)]

theorem C8_export_import_roundtrip_witness :
    (byname_find (import_from_jsondict (export_to_jsondict c8db) c8db) "a").map pointer
      = (byname_find c8db "a").map pointer ∧
    (import_from_jsondict (export_to_jsondict c8db) c8db)[1]? =
      some ⟨"b", 0, Policy.SESSION, some 2⟩ ∧
    import_from_jsondict c8j c8db
      = import_from_jsondict (c8j.filter (fun p => p.1 != "zz")) c8db :=
  ⟨(C8_export_import_roundtrip c8db).1 "a",
   (C8_export_import_roundtrip c8db).2.1 1 ⟨"b", 0, Policy.SESSION, some 2⟩
     (by decide) (by decide),
   (C8_export_import_roundtrip c8db).2.2 c8j "zz" (by decide)⟩

theorem C7_snowflake_next_sequence_witness :
    (nextN "a" 3 c7db).map Prod.fst =
      some ((List.range 3).map (fun i : Nat => (5 : Int) + (i : Int))) ∧
    ((List.range 3).map (fun i : Nat => (5 : Int) + (i : Int))).getLast? =
      some ((5 : Int) + ((3 : Int) - 1)) ∧
    ((List.range 3).map (fun i : Nat => (5 : Int) + (i : Int))).Nodup :=
  C7_snowflake_next_sequence c7db "a" ⟨"a", 5, Policy.SESSION, none⟩
    (by decide) rfl 3 (by decide)

end snowflakes

namespace chassis2023

/-- The MODULES sub-dict of a module's kMODULE_INFO block:
`spec.get(DIRS/FILES/NAMES, [])`, each defaulting to the empty list. -/
structure ModSpec where
  names : List String
  files : List String
  dirs : List String
deriving DecidableEq

/-- A module's kMODULE_INFO metadata block.  `symbols` is
`info.get("SYMBOLS")` (absent key gives `none`); `importsymbols` is
`info.get("IMPORTSYMBOLS", [])`; `modules` is `info.get(MODULES, {})`. -/
structure ModuleInfo where
  modules : ModSpec
  symbols : Option String
  importsymbols : List String
deriving DecidableEq

/-- A loaded Python module.  `id` models object identity (Python `in` on a
list of modules compares by identity); `name` is `__name__`; `info` is the
optional kMODULE_INFO attribute; the three flags record which of the
optional duck-typed capability hooks (`stage`, `run`, `pulse`) the module
defines with a truthy value. -/
structure PyModule where
  id : Nat
  name : String
  info : Option ModuleInfo
  hasStage : Bool
  hasRun : Bool
  hasPulse : Bool
deriving DecidableEq

/-- Models `getattr(mod, kMODULE_INFO, {}).get(MODULES, {})`. -/
def modinfo_spec (m : PyModule) : ModSpec :=
  match m.info with
  | none => ⟨[], [], []⟩
  | some i => i.modules

/-- Models `getattr(mod, kMODULE_INFO, {}).get("SYMBOLS")`. -/
def modinfo_symbols (m : PyModule) : Option String :=
  m.info.bind (fun i => i.symbols)

/-- Models `getattr(mod, kMODULE_INFO, {}).get("IMPORTSYMBOLS", [])`. -/
def modinfo_importsymbols (m : PyModule) : List String :=
  match m.info with
  | none => []
  | some i => i.importsymbols

/-- A discovery-time provenance description: either a string (the two
seeding calls pass "programdata.json" / "execution type: ...") or the
module whose metadata requested the address (the cascade loop passes the
module object itself). -/
inductive Prov where
  | desc (s : String)
  | frommod (m : PyModule)
deriving DecidableEq

/-- The exceptions chassis2023.py can raise, plus the Python builtin
errors its code can hit (KeyError on a missing dict key): WasLocked /
WasNotLocked are the BrokenPromise subclasses, ValueError comes from
`log` / `register_error`, ChassisModuleNotFoundError from module intake. -/
inductive Err where
  | WasLocked (key : String)
  | WasNotLocked (key : String)
  | ValueError (s : String)
  | ModuleNotFound (addr : String) (src : Option Prov)
  | KeyError
  | NameError (name : String)
deriving DecidableEq

-- --[ security: the lock guard ]---------------------------------------

/-- Models `lock(key)`: raise WasLocked if the key is held, else add it to the
lock set (modelled as a duplicate-free list). -/
def lock (key : String) (locks : List String) : Except Err (List String) :=
  if key ∈ locks then .error (.WasLocked key) else .ok (locks ++ [key])

/-- Models `unlock(key)`: remove the key from the lock set, raising WasNotLocked
when it is absent. -/
def unlock (key : String) (locks : List String) : Except Err (List String) :=
  if key ∈ locks then .ok (locks.erase key) else .error (.WasNotLocked key)

/-- C6: for every key k and lock set: locking a held key fails with the
WasLocked error and an unlock of an absent key fails with the WasNotLocked
error (each failing call yields no successor state, so the lock set is
unchanged); and from a state not holding k, the sequence lock(k),
unlock(k), lock(k) succeeds at every step, the unlock restoring the
original set. -/
theorem C6_lock_guard (k : String) (L : List String) :
    (k ∈ L → lock k L = .error (.WasLocked k)) ∧
    (k ∉ L → unlock k L = .error (.WasNotLocked k)) ∧
    (k ∉ L →
      lock k L = .ok (L ++ [k]) ∧
      lock k (L ++ [k]) = .error (.WasLocked k) ∧
      unlock k (L ++ [k]) = .ok L ∧
      lock k L = .ok (L ++ [k])) := by
  refine ⟨?_, ?_, ?_⟩
  · intro h
    simp [lock, h]
  · intro h
    simp [unlock, h]
  · intro h
    have hms : k ∈ L ++ [k] := by simp
    have herase : (L ++ [k]).erase k = L := by
      rw [List.erase_append_right _ h]
      simp

    exact ⟨by simp [lock, h], by simp [lock, hms], by simp [unlock, hms, herase], by simp [lock, h]⟩

theorem C6_lock_guard_witness :
    lock "k1" ["k1"] = Except.error (Err.WasLocked "k1") ∧
    unlock "k1" [] = Except.error (Err.WasNotLocked "k1") ∧
    (lock "k1" [] = Except.ok ([] ++ ["k1"]) ∧
     lock "k1" ([] ++ ["k1"]) = Except.error (Err.WasLocked "k1") ∧
     unlock "k1" ([] ++ ["k1"]) = Except.ok [] ∧
     lock "k1" [] = Except.ok ([] ++ ["k1"])) :=
  ⟨(C6_lock_guard "k1" ["k1"]).1 (by decide),
   (C6_lock_guard "k1" []).2.1 (by decide),
   (C6_lock_guard "k1" []).2.2 (by decide)⟩

-- --[ logging and the ring log ]---------------------------------------

/-- Interned symbols from kSYMBOLS used by the logging and census code.
They are plain strings in the source. -/
def NOTE : String := "NOTE"

def DBG : String := "DBG"

def WARN : String := "WARN"

def ERR : String := "ERR"

def BADPROGRAMDATA : String := "BADPROGRAMDATA"

def TOOMANYRUNMODULES : String := "TOOMANYRUNMODULES"

def NORUNMODULE : String := "NORUNMODULE"

/-- A log record.  The source stores {TIME, SRC, TYPE, CODE, TITLE, MSG};
the wall-clock TIME and the `inspect.stack()` SRC capture are environment
effects abstracted away, the data payload is kept. -/
structure LogEntry where
  type_ : String
  code : String
  title : String
  msg : String
deriving DecidableEq

/-- The chassis's global mutable state relevant to locking, logging and
the run-module census: the `locks` set, the `modules` list, the unbounded
`logs` list, the bounded `ringlogs` list, `g[PROGRAMDATA][PROGRAM]
[LOGRINGLEN]` (absent key modelled as `none`), and `g[RUNMODULE]`. -/
structure ChassisSt where
  locks : List String
  modules : List PyModule
  logs : List LogEntry
  ringlogs : List LogEntry
  logringlen : Option Nat
  runmodule : Option PyModule
deriving DecidableEq

/-- Models `log(type_, code, title, msg)`: ValueError unless the severity is one
of NOTE/DBG/WARN/ERR, else append the entry to the unbounded log. -/
def log (type_ code title msg : String) (st : ChassisSt) : Except Err ChassisSt :=
  if type_ ∈ [NOTE, DBG, WARN, ERR] then
    .ok { st with logs := st.logs ++ [⟨type_, code, title, msg⟩] }
  else
    .error (.ValueError type_)

/-- Models `ringlog(type_, code, title, msg)`: perform `log(...)`, then move the
just-created entry from the unbounded log into the ring log
(`ringlogs.append(logs.pop())`); if LOGRINGLEN is configured, drop the
oldest ring entry when the ring exceeds it; if LOGRINGLEN is missing the
dict lookup raises KeyError, caught, and a BADPROGRAMDATA diagnostic is
appended to the unbounded log instead. -/
def ringlog (type_ code title msg : String) (st : ChassisSt) : Except Err ChassisSt :=
  match log type_ code title msg st with
  | .error e => .error e
  | .ok st1 =>
    match st1.logs.getLast? with
    | none => .ok st1
    | some entry =>
      let st2 : ChassisSt :=
        { st1 with logs := st1.logs.dropLast, ringlogs := st1.ringlogs ++ [entry] }
      match st2.logringlen with
      | some cap =>
        .ok (if st2.ringlogs.length > cap
             then { st2 with ringlogs := st2.ringlogs.drop 1 }
             else st2)
      | none =>
        log ERR BADPROGRAMDATA "LOGRINGLEN not defined"
          "ringlog(...) called, but LOGRIGNLEN was not defined in the program data" st2

/-- Initial state for the ring-log scenarios: capacity configured to `cap`,
nothing logged, no locks, no modules. -/
def ringSt (cap : Option Nat) : ChassisSt :=
  ⟨[], [], [], [], cap, none⟩

/-- The state produced by one `ringlog NOTE "C" "T" "M"` call from
`ringSt (some 5)`: the entry lands in the ring log only; the unbounded
log is empty again afterwards. -/
def c4st1 : ChassisSt :=
  ⟨[], [], [], [⟨NOTE, "C", "T", "M"⟩], some 5, none⟩

/-- C4 counterexample: the claim says that after a `ringlog` call with a
valid severity the just-created entry is present in both the unbounded log
and the ring buffer, the unbounded log being append-only.  In the code,
`ringlog` does `ringlogs.append(logs.pop())`: the entry is popped back out
of the unbounded log, so afterwards it is present in the ring buffer only
and the unbounded log has shrunk back. -/
theorem C4_ringlog_counterexample :
    ringlog NOTE "C" "T" "M" (ringSt (some 5)) = Except.ok c4st1 ∧
    (⟨NOTE, "C", "T", "M"⟩ : LogEntry) ∉ c4st1.logs ∧
    (⟨NOTE, "C", "T", "M"⟩ : LogEntry) ∈ c4st1.ringlogs := by
  refine ⟨rfl, by decide, by decide⟩

lemma log_closed_form (st : ChassisSt) (type_ code title msg : String)
    (hv : type_ ∈ [NOTE, DBG, WARN, ERR]) :
    log type_ code title msg st =
      Except.ok { st with logs := st.logs ++ [⟨type_, code, title, msg⟩] } := by
  simp [log, hv]

lemma ringlog_closed_form (st : ChassisSt) (type_ code title msg : String)
    (hv : type_ ∈ [NOTE, DBG, WARN, ERR]) (cap : Nat)
    (hc : st.logringlen = some cap) :
    ringlog type_ code title msg st =
      Except.ok { st with
        ringlogs :=
          if (st.ringlogs ++ [(⟨type_, code, title, msg⟩ : LogEntry)]).length > cap
          then (st.ringlogs ++ [(⟨type_, code, title, msg⟩ : LogEntry)]).drop 1
          else st.ringlogs ++ [⟨type_, code, title, msg⟩] } := by
  unfold ringlog
  rw [log_closed_form st type_ code title msg hv]
  simp only [List.getLast?_concat, List.dropLast_concat, hc]
  by_cases hcase :
      (st.ringlogs ++ [(⟨type_, code, title, msg⟩ : LogEntry)]).length > cap
  · rw [if_pos hcase, if_pos hcase]
  · rw [if_neg hcase, if_neg hcase]

/-- C4 as amended: for every ringlog call with a valid severity and a
configured ring capacity, the call first appends the entry to the
unbounded log via `log` and then moves that same entry out of the
unbounded log into the ring buffer: after the call the unbounded log is
exactly as before the call and the ring buffer has the entry appended
(subject to one oldest-first eviction when the capacity is exceeded). -/
theorem C4_ringlog_moves_entry (st : ChassisSt) (type_ code title msg : String)
    (hv : type_ ∈ [NOTE, DBG, WARN, ERR]) (cap : Nat)
    (hc : st.logringlen = some cap) :
    log type_ code title msg st =
      Except.ok { st with logs := st.logs ++ [⟨type_, code, title, msg⟩] } ∧
    ringlog type_ code title msg st =
      Except.ok { st with
        ringlogs :=
          if (st.ringlogs ++ [(⟨type_, code, title, msg⟩ : LogEntry)]).length > cap
          then (st.ringlogs ++ [(⟨type_, code, title, msg⟩ : LogEntry)]).drop 1
          else st.ringlogs ++ [⟨type_, code, title, msg⟩] } :=
  ⟨log_closed_form st type_ code title msg hv,
   ringlog_closed_form st type_ code title msg hv cap hc⟩

theorem C4_ringlog_moves_entry_witness :
    log NOTE "C" "T" "M" (ringSt (some 5)) =
      Except.ok { ringSt (some 5) with
        logs := (ringSt (some 5)).logs ++ [⟨NOTE, "C", "T", "M"⟩] } ∧
    ringlog NOTE "C" "T" "M" (ringSt (some 5)) =
      Except.ok { ringSt (some 5) with
        ringlogs :=
          if ((ringSt (some 5)).ringlogs ++ [(⟨NOTE, "C", "T", "M"⟩ : LogEntry)]).length > 5
          then ((ringSt (some 5)).ringlogs ++ [(⟨NOTE, "C", "T", "M"⟩ : LogEntry)]).drop 1
          else (ringSt (some 5)).ringlogs ++ [⟨NOTE, "C", "T", "M"⟩] } :=
  C4_ringlog_moves_entry (ringSt (some 5)) NOTE "C" "T" "M" (by decide) 5 rfl

/-- The i-th entry logged in the C5 scenario. -/
def c5entry (i : Nat) : LogEntry := ⟨NOTE, "C", "T", toString i⟩

/-- The C5 scenario: capacity 3 configured, five consecutive ringlog
calls from a fresh state. -/
def c5run : Except Err ChassisSt :=
  (ringlog NOTE "C" "T" (toString 1) (ringSt (some 3))).bind
    (fun st => (ringlog NOTE "C" "T" (toString 2) st).bind
      (fun st => (ringlog NOTE "C" "T" (toString 3) st).bind
        (fun st => (ringlog NOTE "C" "T" (toString 4) st).bind
          (fun st => ringlog NOTE "C" "T" (toString 5) st))))

/-- C5: with the ring-log capacity configured, a ringlog call keeps the
ring buffer's length at most the capacity whenever it was within the bound
before the call (the inductive invariant over every run); and in the
concrete scenario — capacity 3, five ringlog calls — the ring buffer
afterwards holds exactly the last three entries in call order, the two
oldest having been evicted first. -/
theorem C5_ring_bound_and_fifo (st : ChassisSt) (cap : Nat)
    (hc : st.logringlen = some cap) (hlen : st.ringlogs.length ≤ cap)
    (t c ti m : String) (st2 : ChassisSt)
    (h2 : ringlog t c ti m st = Except.ok st2) :
    st2.ringlogs.length ≤ cap ∧
    c5run.map (fun s => s.ringlogs) =
      Except.ok [c5entry 3, c5entry 4, c5entry 5] := by
  refine ⟨?_, by rfl⟩
  by_cases hv : t ∈ [NOTE, DBG, WARN, ERR]
  · rw [ringlog_closed_form st t c ti m hv cap hc] at h2
    have hst2 := (Except.ok.inj h2).symm
    subst hst2
    by_cases hcase : (st.ringlogs ++ [(⟨t, c, ti, m⟩ : LogEntry)]).length > cap
    · rw [if_pos hcase]
      simp only [List.length_drop, List.length_append, List.length_cons,
        List.length_nil]
      omega
    · rw [if_neg hcase]
      simp only [List.length_append, List.length_cons, List.length_nil] at hcase ⊢
      omega
  · simp [ringlog, log, hv] at h2

/-- Concrete pre-state for the C5 witness: capacity 3, ring already full
with the entries of the first three scenario calls. -/
def c5st3 : ChassisSt :=
  ⟨[], [], [], [c5entry 1, c5entry 2, c5entry 3], some 3, none⟩

theorem C5_ring_bound_and_fifo_witness :
    ((⟨[], [], [], [c5entry 2, c5entry 3, c5entry 4], some 3, none⟩ :
        ChassisSt)).ringlogs.length ≤ 3 ∧
    c5run.map (fun s => s.ringlogs) =
      Except.ok [c5entry 3, c5entry 4, c5entry 5] :=
  C5_ring_bound_and_fifo c5st3 3 rfl (by decide) NOTE "C" "T" (toString 4)
    ⟨[], [], [], [c5entry 2, c5entry 3, c5entry 4], some 3, none⟩ rfl

-- --[ run-module census ]----------------------------------------------

/-- Rendering of a module in a log message (`str(module)`; we keep the
module's name as the identifying part of that rendering). -/
def moduleStr (m : PyModule) : String := m.name

/-- The offender-listing message built by `register_error` for
TOOMANYRUNMODULES. -/
def render_toomany (offenders : List PyModule) : String :=
  offenders.foldl (fun msg m => msg ++ "  " ++ moduleStr m ++ "\n")
    ("There should only be one module with run() defined in it,\nBut these modules all define run():\n")

/-- The message built by `register_error` for NORUNMODULE, listing the
modules that were imported (or a placeholder when there are none). -/
def render_norunmodule (mods : List PyModule) : String :=
  let base := mods.foldl (fun msg m => msg ++ "  " ++ moduleStr m ++ "\n")
    ("run() was not defined in any of the imported modules:\n")
  if mods.isEmpty then base ++ "  (no modules)\n" else base

/-- Models `register_error(code, **data)`: for the two known codes, log an ERR
entry with the rendered message (TOOMANYRUNMODULES lists `data[MODULES]`,
NORUNMODULE lists the global `modules`); unknown codes raise ValueError. -/
def register_error (code : String) (offenders : List PyModule) (st : ChassisSt) :
    Except Err ChassisSt :=
  if code = TOOMANYRUNMODULES then
    log ERR code "Too Many Run Modules" (render_toomany offenders) st
  else if code = NORUNMODULE then
    log ERR code "No Run Module" (render_norunmodule st.modules) st
  else
    .error (.ValueError code)

/-- The lock key taken by `find_runmodule`. -/
def kFIND_RUNMODULE_KEY : String := "CALLED:chassis2023.find_runmodule()"

/-- Models `find_runmodule()`: take the call-once lock, collect the modules with
a run hook, compare their number against the execution type's NRUNMODULES
(`need`): equal and one → designate the run module; more than needed →
log a TOOMANYRUNMODULES diagnostic; fewer → log a NORUNMODULE
diagnostic. -/
def find_runmodule (need : Nat) (st : ChassisSt) : Except Err ChassisSt :=
  match lock kFIND_RUNMODULE_KEY st.locks with
  | .error e => .error e
  | .ok locks2 =>
    let st1 : ChassisSt := { st with locks := locks2 }
    let has_run := st1.modules.filter (fun m => m.hasRun)
    if has_run.length = need then
      if need = 1 then .ok { st1 with runmodule := has_run.head? }
      else .ok st1
    else if has_run.length > need then
      register_error TOOMANYRUNMODULES has_run st1
    else
      register_error NORUNMODULE [] st1

lemma foldl_msg_extends (L : List PyModule) :
    ∀ acc : String, ∃ t : List Char,
      (L.foldl (fun msg m => msg ++ "  " ++ moduleStr m ++ "\n") acc).data =
        acc.data ++ t := by
  induction L with
  | nil => exact fun acc => ⟨[], by simp⟩
  | cons x rest ih =>
    intro acc
    obtain ⟨t, ht⟩ := ih (acc ++ "  " ++ moduleStr x ++ "\n")
    refine ⟨("  " ++ moduleStr x ++ "\n").data ++ t, ?_⟩
    rw [List.foldl_cons, ht]
    simp [String.data_append]

lemma mem_foldl_msg (m : PyModule) :
    ∀ (L : List PyModule) (acc : String), m ∈ L →
      ∃ a b : List Char,
        (L.foldl (fun msg x => msg ++ "  " ++ moduleStr x ++ "\n") acc).data =
          a ++ (moduleStr m).data ++ b
  | [], _, hm => absurd hm (List.not_mem_nil m)
  | x :: rest, acc, hm => by
    rcases List.mem_cons.mp hm with hx | hrest
    · subst hx
      obtain ⟨t, ht⟩ := foldl_msg_extends rest (acc ++ "  " ++ moduleStr m ++ "\n")
      rw [List.foldl_cons, ht]
      refine ⟨acc.data ++ "  ".data, "\n".data ++ t, ?_⟩
      simp [String.data_append]
    · rw [List.foldl_cons]
      exact mem_foldl_msg m rest (acc ++ "  " ++ moduleStr x ++ "\n") hrest

lemma render_toomany_lists_offenders (offenders : List PyModule)
    (m : PyModule) (hm : m ∈ offenders) :
    ∃ a b : List Char,
      (render_toomany offenders).data = a ++ (moduleStr m).data ++ b :=
  mem_foldl_msg m offenders _ hm

/-- C3: from an unlocked state, `find_runmodule` never raises; when the
number of run-hook modules equals the required count and that count is 1
the first such module is designated as the run entry and nothing is
logged; when the count exceeds the requirement a TOOMANYRUNMODULES ERR
diagnostic whose message lists every offender is appended to the log and
the run entry is left unset; when it falls short a NORUNMODULE ERR
diagnostic is appended and the run entry is left unset. -/
theorem C3_run_entry_census (st : ChassisSt) (need : Nat)
    (hl : kFIND_RUNMODULE_KEY ∉ st.locks) :
    (∀ e, find_runmodule need st ≠ Except.error e) ∧
    (∀ st2, find_runmodule need st = Except.ok st2 →
      ((st.modules.filter (fun m => m.hasRun)).length = need → need = 1 →
        st2.runmodule = (st.modules.filter (fun m => m.hasRun)).head? ∧
        st2.logs = st.logs) ∧
      ((st.modules.filter (fun m => m.hasRun)).length > need →
        st2.runmodule = st.runmodule ∧
        st2.logs = st.logs ++
          [⟨ERR, TOOMANYRUNMODULES, "Too Many Run Modules",
            render_toomany (st.modules.filter (fun m => m.hasRun))⟩] ∧
        (∀ m ∈ st.modules.filter (fun m => m.hasRun),
          ∃ a b : List Char,
            (render_toomany (st.modules.filter (fun m => m.hasRun))).data =
              a ++ (moduleStr m).data ++ b)) ∧
      ((st.modules.filter (fun m => m.hasRun)).length < need →
        st2.runmodule = st.runmodule ∧
        st2.logs = st.logs ++
          [⟨ERR, NORUNMODULE, "No Run Module",
            render_norunmodule st.modules⟩])) := by
  have hlock : lock kFIND_RUNMODULE_KEY st.locks =
      .ok (st.locks ++ [kFIND_RUNMODULE_KEY]) := by
    simp [lock, hl]
  have hv : ERR ∈ [NOTE, DBG, WARN, ERR] := by decide
  by_cases heq : (st.modules.filter (fun m => m.hasRun)).length = need
  · by_cases hone : need = 1
    · constructor
      · intro e
        simp [find_runmodule, hlock, heq, hone]
      · intro st2 h2
        simp only [find_runmodule, hlock, heq, hone, if_pos] at h2
        have hst2 := (Except.ok.inj h2).symm
        subst hst2
        refine ⟨fun _ _ => ⟨rfl, rfl⟩, fun hgt => absurd heq (by omega), fun hlt => absurd heq (by omega)⟩
    · constructor
      · intro e
        simp [find_runmodule, hlock, heq, hone]
      · intro st2 h2
        simp only [find_runmodule, hlock, heq, hone, if_pos, if_neg] at h2
        have hst2 := (Except.ok.inj h2).symm
        subst hst2
        refine ⟨fun _ h1 => absurd h1 hone, fun hgt => absurd heq (by omega), fun hlt => absurd heq (by omega)⟩
  · by_cases hgt : (st.modules.filter (fun m => m.hasRun)).length > need
    · have hre : register_error TOOMANYRUNMODULES
          (st.modules.filter (fun m => m.hasRun))
          { st with locks := st.locks ++ [kFIND_RUNMODULE_KEY] } =
          Except.ok { st with
            locks := st.locks ++ [kFIND_RUNMODULE_KEY],
            logs := st.logs ++
              [⟨ERR, TOOMANYRUNMODULES, "Too Many Run Modules",
                render_toomany (st.modules.filter (fun m => m.hasRun))⟩] } := by
        rw [register_error, if_pos rfl,
          log_closed_form _ ERR TOOMANYRUNMODULES _ _ hv]
      constructor
      · intro e
        simp [find_runmodule, hlock, heq, hgt, hre]
      · intro st2 h2
        simp only [find_runmodule, hlock, heq, hgt, if_pos, if_neg, hre] at h2
        have hst2 := (Except.ok.inj h2).symm
        subst hst2
        refine ⟨fun h1 _ => absurd h1 heq, fun _ => ⟨rfl, rfl, ?_⟩,
          fun hlt => absurd hlt (by omega)⟩
        intro m hm
        exact render_toomany_lists_offenders _ m hm
    · have hlt : (st.modules.filter (fun m => m.hasRun)).length < need := by omega
      have hre : register_error NORUNMODULE []
          { st with locks := st.locks ++ [kFIND_RUNMODULE_KEY] } =
          Except.ok { st with
            locks := st.locks ++ [kFIND_RUNMODULE_KEY],
            logs := st.logs ++
              [⟨ERR, NORUNMODULE, "No Run Module",
                render_norunmodule st.modules⟩] } := by
        rw [register_error, if_neg (by decide), if_pos rfl,
          log_closed_form _ ERR NORUNMODULE _ _ hv]
      constructor
      · intro e
        simp [find_runmodule, hlock, heq, hgt, hre]
      · intro st2 h2
        simp only [find_runmodule, hlock, heq, hgt, if_neg, hre] at h2
        have hst2 := (Except.ok.inj h2).symm
        subst hst2
        exact ⟨fun h1 _ => absurd h1 heq, fun hg => absurd hg hgt,
          fun _ => ⟨rfl, rfl⟩⟩

/-- Two modules that both define run(). -/
def c3m1 : PyModule := ⟨1, "alpha", none, false, true, false⟩

def c3m2 : PyModule := ⟨2, "beta", none, false, true, false⟩

/-- Census pre-state: two run modules discovered, nothing locked or
logged, no run module designated. -/
def c3st : ChassisSt := ⟨[], [c3m1, c3m2], [], [], none, none⟩

/-- The state `find_runmodule 1` produces from `c3st`: lock taken and the
TOOMANYRUNMODULES diagnostic logged; no run entry designated. -/
def c3st2 : ChassisSt :=
  ⟨[kFIND_RUNMODULE_KEY], [c3m1, c3m2],
   [⟨ERR, TOOMANYRUNMODULES, "Too Many Run Modules",
     render_toomany [c3m1, c3m2]⟩],
   [], none, none⟩

theorem C3_run_entry_census_witness :
    find_runmodule 1 c3st ≠ Except.error Err.KeyError ∧
    c3st2.runmodule = c3st.runmodule ∧
    c3st2.logs = c3st.logs ++
      [⟨ERR, TOOMANYRUNMODULES, "Too Many Run Modules",
        render_toomany (c3st.modules.filter (fun m => m.hasRun))⟩] :=
  ⟨(C3_run_entry_census c3st 1 (by decide)).1 Err.KeyError,
   (((C3_run_entry_census c3st 1 (by decide)).2 c3st2 rfl).2.1 (by decide)).1,
   (((C3_run_entry_census c3st 1 (by decide)).2 c3st2 rfl).2.1 (by decide)).2.1⟩

-- --[ lifecycle stage runner ]-----------------------------------------

/-- The stage symbols from kSYMBOLS (interned strings in the source). -/
def INIT : String := "INIT"

def SETUP : String := "SETUP"

def LOAD : String := "LOAD"

def POSTLOAD : String := "POSTLOAD"

def INTERLINK : String := "INTERLINK"

def RUNSTART : String := "RUNSTART"

def RUNSTOP : String := "RUNSTOP"

def PRECLOSE : String := "PRECLOSE"

def SAVE : String := "SAVE"

def POSTSAVE : String := "POSTSAVE"

def TEARDOWN : String := "TEARDOWN"

/-- The execution-type symbol that triggers the tkinter special cases. -/
def TKINTERGUI : String := "TKINTERGUI"

/-- The fixed 11-stage lifecycle sequence of perform_setup, perform_run
and perform_teardown. -/
def kSTAGES : List String :=
  [INIT, SETUP, LOAD, POSTLOAD, INTERLINK,
   RUNSTART, RUNSTOP,
   PRECLOSE, SAVE, POSTSAVE, TEARDOWN]

/-- Observable events of a lifecycle run: `stageSet s` marks
`g[STAGE] = stage`, `stageHook mid s` the invocation of module `mid`'s
stage() hook during stage `s`, `runCall mid` the run-module call, and
`tkSetup` / `tkRun` the tkinter special cases of perform_setup /
perform_run. -/
inductive Ev where
  | stageSet (s : String)
  | stageHook (mid : Nat) (s : String)
  | runCall (mid : Nat)
  | tkSetup
  | tkRun
deriving DecidableEq

/-- Stage-runner state: `g[STAGE]` plus the trace of observable events. -/
structure RunSt where
  stage : Option String
  trace : List Ev
deriving DecidableEq

/-- Models `perform_stage(stage)`: record the stage in `g[STAGE]`, then for every
module in the modules list, in list order, invoke its stage() hook if it
defines one (and silently skip it otherwise). -/
def perform_stage (stage : String) (mods : List PyModule) (st : RunSt) : RunSt :=
  let st1 : RunSt := { stage := some stage, trace := st.trace ++ [Ev.stageSet stage] }
  mods.foldl
    (fun s m =>
      if m.hasStage then { s with trace := s.trace ++ [Ev.stageHook m.id stage] }
      else s)
    st1

/-- Models `perform_setup()`: INIT, the tkinter special case, SETUP, LOAD,
POSTLOAD, INTERLINK. -/
def perform_setup (exectype : String) (mods : List PyModule) (st : RunSt) : RunSt :=
  let st1 := perform_stage INIT mods st
  let st2 := if exectype = TKINTERGUI
             then { st1 with trace := st1.trace ++ [Ev.tkSetup] }
             else st1
  let st3 := perform_stage SETUP mods st2
  let st4 := perform_stage LOAD mods st3
  let st5 := perform_stage POSTLOAD mods st4
  perform_stage INTERLINK mods st5

/-- Models `perform_run()`: RUNSTART, the run-module call (or the tkinter
fallback), RUNSTOP. -/
def perform_run (exectype : String) (runmodule : Option PyModule)
    (mods : List PyModule) (st : RunSt) : RunSt :=
  let st1 := perform_stage RUNSTART mods st
  let st2 :=
    match runmodule with
    | some m => { st1 with trace := st1.trace ++ [Ev.runCall m.id] }
    | none =>
      if exectype = TKINTERGUI
      then { st1 with trace := st1.trace ++ [Ev.tkRun] }
      else st1
  perform_stage RUNSTOP mods st2

/-- Models `perform_teardown()`: PRECLOSE, SAVE, POSTSAVE, TEARDOWN. -/
def perform_teardown (mods : List PyModule) (st : RunSt) : RunSt :=
  let st1 := perform_stage PRECLOSE mods st
  let st2 := perform_stage SAVE mods st1
  let st3 := perform_stage POSTSAVE mods st2
  perform_stage TEARDOWN mods st3

/-- The stage-running portion of `run()`: perform_setup, perform_run,
perform_teardown in order (perform_prep performs no stage). -/
def run_lifecycle (exectype : String) (runmodule : Option PyModule)
    (mods : List PyModule) (st : RunSt) : RunSt :=
  perform_teardown mods (perform_run exectype runmodule mods (perform_setup exectype mods st))

/-- The sequence of stages recorded in a trace. -/
def stagesOf (tr : List Ev) : List String :=
  tr.filterMap (fun e =>
    match e with
    | .stageSet s => some s
    | _ => none)

lemma perform_stage_foldl (stage : String) :
    ∀ (mods : List PyModule) (s : RunSt),
      mods.foldl
        (fun s m =>
          if m.hasStage then { s with trace := s.trace ++ [Ev.stageHook m.id stage] }
          else s)
        s =
      { s with trace := s.trace ++
          (mods.filter (fun m => m.hasStage)).map (fun m => Ev.stageHook m.id stage) }
  | [], s => by simp
  | m :: rest, s => by
    rw [List.foldl_cons]
    cases hm : m.hasStage with
    | true =>
      rw [if_pos rfl, perform_stage_foldl stage rest _, List.filter_cons, if_pos (by simp [hm])]
      simp
    | false =>
      rw [if_neg (by simp), perform_stage_foldl stage rest _, List.filter_cons,
        if_neg (by simp [hm])]

lemma perform_stage_spec (stage : String) (mods : List PyModule) (st : RunSt) :
    (perform_stage stage mods st).stage = some stage ∧
    (perform_stage stage mods st).trace =
      st.trace ++ [Ev.stageSet stage] ++
        (mods.filter (fun m => m.hasStage)).map (fun m => Ev.stageHook m.id stage) := by
  unfold perform_stage
  rw [perform_stage_foldl stage mods]
  exact ⟨rfl, by simp⟩

lemma stagesOf_append (t1 t2 : List Ev) :
    stagesOf (t1 ++ t2) = stagesOf t1 ++ stagesOf t2 := by
  simp [stagesOf, List.filterMap_append]

lemma stagesOf_hooks (stage : String) (mods : List PyModule) :
    stagesOf ((mods.filter (fun m => m.hasStage)).map
      (fun m => Ev.stageHook m.id stage)) = [] := by
  induction mods with
  | nil => rfl
  | cons m rest ih =>
    rw [List.filter_cons]
    by_cases hm : m.hasStage = true
    · rw [if_pos (by simp [hm])]
      simp only [stagesOf, List.filterMap] at ih ⊢
      exact ih
    · rw [if_neg (by simp at hm ⊢; exact hm)]
      exact ih

lemma stagesOf_perform_stage (stage : String) (mods : List PyModule) (st : RunSt) :
    stagesOf (perform_stage stage mods st).trace = stagesOf st.trace ++ [stage] := by
  rw [(perform_stage_spec stage mods st).2, stagesOf_append, stagesOf_append,
    stagesOf_hooks]
  simp [stagesOf, List.filterMap]

lemma stages_of_run_lifecycle (exectype : String) (runmodule : Option PyModule)
    (mods : List PyModule) (st : RunSt) :
    stagesOf (run_lifecycle exectype runmodule mods st).trace =
      stagesOf st.trace ++ kSTAGES := by
  unfold run_lifecycle perform_teardown perform_run perform_setup
  have htk : ∀ s : RunSt, stagesOf (if exectype = TKINTERGUI
      then { s with trace := s.trace ++ [Ev.tkSetup] } else s).trace =
      stagesOf s.trace := by
    intro s
    by_cases he : exectype = TKINTERGUI
    · rw [if_pos he, stagesOf_append]
      simp [stagesOf, List.filterMap]
    · rw [if_neg he]
  have hrm : ∀ s : RunSt, stagesOf (
      (match runmodule with
       | some m => { s with trace := s.trace ++ [Ev.runCall m.id] }
       | none =>
         if exectype = TKINTERGUI
         then { s with trace := s.trace ++ [Ev.tkRun] }
         else s) : RunSt).trace = stagesOf s.trace := by
    intro s
    cases runmodule with
    | some m =>
      rw [stagesOf_append]
      simp [stagesOf, List.filterMap]
    | none =>
      by_cases he : exectype = TKINTERGUI
      · rw [if_pos he, stagesOf_append]
        simp [stagesOf, List.filterMap]
      · rw [if_neg he]
  simp only [stagesOf_perform_stage, htk, hrm]
  simp [kSTAGES]

lemma mem_trace_perform_stage (ev : Ev) (stage : String) (mods : List PyModule)
    (st : RunSt) (h : ev ∈ st.trace) : ev ∈ (perform_stage stage mods st).trace := by
  rw [(perform_stage_spec stage mods st).2]
  simp only [List.mem_append]
  exact Or.inl (Or.inl (by simpa using h))

lemma hook_mem_perform_stage (stage : String) (mods : List PyModule) (st : RunSt)
    (m : PyModule) (hm : m ∈ mods) (hs : m.hasStage = true) :
    Ev.stageHook m.id stage ∈ (perform_stage stage mods st).trace := by
  rw [(perform_stage_spec stage mods st).2]
  simp only [List.mem_append]
  exact Or.inr (List.mem_map_of_mem _ (List.mem_filter.mpr ⟨hm, hs⟩))

lemma mem_trace_tk (ev : Ev) (c : Prop) [Decidable c] (x : Ev) (s : RunSt)
    (h : ev ∈ s.trace) :
    ev ∈ (if c then { s with trace := s.trace ++ [x] } else s).trace := by
  by_cases hc : c
  · rw [if_pos hc]
    exact List.mem_append_left _ h
  · rw [if_neg hc]
    exact h

lemma mem_trace_runstep (ev : Ev) (exectype : String)
    (runmodule : Option PyModule) (s : RunSt) (h : ev ∈ s.trace) :
    ev ∈ ((match runmodule with
      | some m => { s with trace := s.trace ++ [Ev.runCall m.id] }
      | none =>
        if exectype = TKINTERGUI
        then { s with trace := s.trace ++ [Ev.tkRun] }
        else s) : RunSt).trace := by
  cases runmodule with
  | some m => exact List.mem_append_left _ h
  | none => exact mem_trace_tk ev _ Ev.tkRun s h

lemma mem_trace_perform_setup (ev : Ev) (exectype : String)
    (mods : List PyModule) (st : RunSt) (h : ev ∈ st.trace) :
    ev ∈ (perform_setup exectype mods st).trace := by
  unfold perform_setup
  apply mem_trace_perform_stage
  apply mem_trace_perform_stage
  apply mem_trace_perform_stage
  apply mem_trace_perform_stage
  apply mem_trace_tk
  exact mem_trace_perform_stage ev INIT mods st h

lemma mem_trace_perform_run (ev : Ev) (exectype : String)
    (runmodule : Option PyModule) (mods : List PyModule) (st : RunSt)
    (h : ev ∈ st.trace) :
    ev ∈ (perform_run exectype runmodule mods st).trace := by
  unfold perform_run
  apply mem_trace_perform_stage
  apply mem_trace_runstep
  exact mem_trace_perform_stage ev RUNSTART mods st h

lemma mem_trace_perform_teardown (ev : Ev) (mods : List PyModule) (st : RunSt)
    (h : ev ∈ st.trace) :
    ev ∈ (perform_teardown mods st).trace := by
  unfold perform_teardown
  apply mem_trace_perform_stage
  apply mem_trace_perform_stage
  apply mem_trace_perform_stage
  exact mem_trace_perform_stage ev PRECLOSE mods st h

lemma hook_mem_perform_setup (exectype : String) (mods : List PyModule)
    (st : RunSt) (m : PyModule) (s : String) (hm : m ∈ mods)
    (hstg : m.hasStage = true)
    (hs : s = INIT ∨ s = SETUP ∨ s = LOAD ∨ s = POSTLOAD ∨ s = INTERLINK) :
    Ev.stageHook m.id s ∈ (perform_setup exectype mods st).trace := by
  unfold perform_setup
  rcases hs with rfl | rfl | rfl | rfl | rfl
  · apply mem_trace_perform_stage
    apply mem_trace_perform_stage
    apply mem_trace_perform_stage
    apply mem_trace_perform_stage
    apply mem_trace_tk
    exact hook_mem_perform_stage _ mods st m hm hstg
  · apply mem_trace_perform_stage
    apply mem_trace_perform_stage
    apply mem_trace_perform_stage
    exact hook_mem_perform_stage _ mods _ m hm hstg
  · apply mem_trace_perform_stage
    apply mem_trace_perform_stage
    exact hook_mem_perform_stage _ mods _ m hm hstg
  · apply mem_trace_perform_stage
    exact hook_mem_perform_stage _ mods _ m hm hstg
  · exact hook_mem_perform_stage _ mods _ m hm hstg

lemma hook_mem_perform_run (exectype : String) (runmodule : Option PyModule)
    (mods : List PyModule) (st : RunSt) (m : PyModule) (s : String)
    (hm : m ∈ mods) (hstg : m.hasStage = true)
    (hs : s = RUNSTART ∨ s = RUNSTOP) :
    Ev.stageHook m.id s ∈ (perform_run exectype runmodule mods st).trace := by
  unfold perform_run
  rcases hs with rfl | rfl
  · apply mem_trace_perform_stage
    apply mem_trace_runstep
    exact hook_mem_perform_stage _ mods st m hm hstg
  · exact hook_mem_perform_stage _ mods _ m hm hstg

lemma hook_mem_perform_teardown (mods : List PyModule) (st : RunSt)
    (m : PyModule) (s : String) (hm : m ∈ mods) (hstg : m.hasStage = true)
    (hs : s = PRECLOSE ∨ s = SAVE ∨ s = POSTSAVE ∨ s = TEARDOWN) :
    Ev.stageHook m.id s ∈ (perform_teardown mods st).trace := by
  unfold perform_teardown
  rcases hs with rfl | rfl | rfl | rfl
  · apply mem_trace_perform_stage
    apply mem_trace_perform_stage
    apply mem_trace_perform_stage
    exact hook_mem_perform_stage _ mods st m hm hstg
  · apply mem_trace_perform_stage
    apply mem_trace_perform_stage
    exact hook_mem_perform_stage _ mods _ m hm hstg
  · apply mem_trace_perform_stage
    exact hook_mem_perform_stage _ mods _ m hm hstg
  · exact hook_mem_perform_stage _ mods _ m hm hstg

lemma hook_mem_run_lifecycle (exectype : String) (runmodule : Option PyModule)
    (mods : List PyModule) (st : RunSt) (m : PyModule) (s : String)
    (hm : m ∈ mods) (hstg : m.hasStage = true) (hs : s ∈ kSTAGES) :
    Ev.stageHook m.id s ∈ (run_lifecycle exectype runmodule mods st).trace := by
  unfold run_lifecycle
  have hsplit :
      (s = INIT ∨ s = SETUP ∨ s = LOAD ∨ s = POSTLOAD ∨ s = INTERLINK) ∨
      (s = RUNSTART ∨ s = RUNSTOP) ∨
      (s = PRECLOSE ∨ s = SAVE ∨ s = POSTSAVE ∨ s = TEARDOWN) := by
    simp only [kSTAGES, List.mem_cons, List.not_mem_nil, or_false] at hs
    tauto
  rcases hsplit with h5 | h2 | h4
  · apply mem_trace_perform_teardown
    apply mem_trace_perform_run
    exact hook_mem_perform_setup exectype mods st m s hm hstg h5
  · apply mem_trace_perform_teardown
    exact hook_mem_perform_run exectype runmodule mods _ m s hm hstg h2
  · exact hook_mem_perform_teardown mods _ m s hm hstg h4

/-- C9: `perform_stage(stage)` records the stage in shared state first and
then invokes, for every module of the module list in list order, that
module's stage hook when it defines one, skipping hookless modules without
error; and a full lifecycle run performs exactly the 11 stages INIT,
SETUP, LOAD, POSTLOAD, INTERLINK, RUNSTART, RUNSTOP, PRECLOSE, SAVE,
POSTSAVE, TEARDOWN in that order, every stage-hook module getting its hook
invoked at every one of them. -/
theorem C9_stage_runner (exectype : String) (runmodule : Option PyModule)
    (mods : List PyModule) (st : RunSt) (stage : String) :
    ((perform_stage stage mods st).stage = some stage ∧
     (perform_stage stage mods st).trace =
       st.trace ++ [Ev.stageSet stage] ++
         (mods.filter (fun m => m.hasStage)).map (fun m => Ev.stageHook m.id stage)) ∧
    stagesOf (run_lifecycle exectype runmodule mods st).trace =
      stagesOf st.trace ++ kSTAGES ∧
    (∀ s ∈ kSTAGES, ∀ m ∈ mods, m.hasStage = true →
      Ev.stageHook m.id s ∈ (run_lifecycle exectype runmodule mods st).trace) :=
  ⟨perform_stage_spec stage mods st,
   stages_of_run_lifecycle exectype runmodule mods st,
   fun s hs m hm hstg =>
     hook_mem_run_lifecycle exectype runmodule mods st m s hm hstg hs⟩

/-- A module with a stage hook and one without, for the C9 witness. -/
def c9mS : PyModule := ⟨1, "withstage", none, true, false, false⟩

def c9mN : PyModule := ⟨2, "hookless", none, false, false, false⟩

def c9mods : List PyModule := [c9mS, c9mN]

def c9st0 : RunSt := ⟨none, []⟩

theorem C9_stage_runner_witness :
    (perform_stage INIT c9mods c9st0).stage = some INIT ∧
    stagesOf (run_lifecycle "CLITOOL" none c9mods c9st0).trace =
      stagesOf c9st0.trace ++ kSTAGES ∧
    Ev.stageHook 1 SAVE ∈ (run_lifecycle "CLITOOL" none c9mods c9st0).trace :=
  ⟨(C9_stage_runner "CLITOOL" none c9mods c9st0 INIT).1.1,
   (C9_stage_runner "CLITOOL" none c9mods c9st0 INIT).2.1,
   (C9_stage_runner "CLITOOL" none c9mods c9st0 INIT).2.2 SAVE (by decide)
     c9mS (by decide) rfl⟩

-- --[ module intake (discovery engine) ]-------------------------------

/-- The three address kinds of the module-intake worklist: the interned
symbols NAME, FILE, DIR. -/
inductive MiKind where
  | NAME
  | FILE
  | DIR
deriving DecidableEq

/-- The resolution environment for module intake: `byName` models
`importlib.import_module` (None = ModuleNotFoundError), `byFile` models
loading a module from a file path, `listDir` models `os.listdir`. -/
structure World where
  byName : String → Option PyModule
  byFile : String → Option PyModule
  listDir : String → List String

/-- The module-intake state: `mi_toprocess` (a stack whose top is the last
element), `mi_processed`, the global `modules` list, the
`mi_recently_processed` batch, the `mi_processing_sources` provenance
dict, and `g[MI_SRC]`. -/
structure MiSt where
  toprocess : List (MiKind × String)
  processed : List (MiKind × String)
  modules : List PyModule
  recently : List PyModule
  sources : List ((MiKind × String) × Prov)
  misrc : Prov
deriving DecidableEq

/-- Models `mi_processing_sources.get(tup)`. -/
def srcLookup (st : MiSt) (tup : MiKind × String) : Option Prov :=
  (st.sources.find? (fun p => p.1 == tup)).map Prod.snd

/-- Models `mi_register_module(module)`: append to `modules` (and the
recently-processed batch) unless the module object is already present. -/
def mi_register_module (m : PyModule) (st : MiSt) : MiSt :=
  if m ∈ st.modules then st
  else { st with modules := st.modules ++ [m], recently := st.recently ++ [m] }

/-- Models `mi_import_module_from_name`: resolve by symbolic name and register;
on failure raise ChassisModuleNotFoundError carrying the provenance
recorded for the (NAME, name) address (the direct dict index raises
KeyError when no provenance was recorded). -/
def mi_import_module_from_name (w : World) (module_name : String) (st : MiSt) :
    Except Err MiSt :=
  match w.byName module_name with
  | some m => .ok (mi_register_module m st)
  | none =>
    match srcLookup st (MiKind.NAME, module_name) with
    | some src => .error (.ModuleNotFound module_name (some src))
    | none => .error .KeyError

/-- Idealized model of `mi_import_module_from_path`: load a single file
and register; on failure raise ChassisModuleNotFoundError with the
provenance recorded for the FILE address, falling back to the DIR
address's provenance.  This is the load path as the function's body
intends it, with the name `os` bound; chassis2023.py never imports os, so
the function as written raises NameError before loading anything — that
behaviour is `mi_import_module_from_path_as_written` below.  The idealized
version over-approximates the source (it has every behaviour of the
as-written version's successful runs — there are none — plus the intended
loads), which is the harder setting for the dedup invariant of C1. -/
def mi_import_module_from_path (w : World) (module_path : String) (st : MiSt) :
    Except Err MiSt :=
  match w.byFile module_path with
  | some m => .ok (mi_register_module m st)
  | none =>
    .error (.ModuleNotFound module_path
      (match srcLookup st (MiKind.FILE, module_path) with
       | some src => some src
       | none => srcLookup st (MiKind.DIR, module_path)))

/-- A directory entry the intake engine loads:
`filename.endswith(".py") or filename.endswith(".pyc")` (string suffix
test, modelled on the character list). -/
def eligible_module_file (fn : String) : Bool :=
  ".py".data.isSuffixOf fn.data || ".pyc".data.isSuffixOf fn.data

/-- The body of `mi_import_modules_from_dir`: iterate the directory
listing, immediately loading each eligible file via
`mi_import_module_from_path`. -/
def mi_import_files (w : World) (dir_path : String) :
    List String → MiSt → Except Err MiSt
  | [], st => .ok st
  | fn :: rest, st =>
    if eligible_module_file fn then
      match mi_import_module_from_path w (dir_path ++ "/" ++ fn) st with
      | .ok st2 => mi_import_files w dir_path rest st2
      | .error e => .error e
    else
      mi_import_files w dir_path rest st

/-- Idealized model of `mi_import_modules_from_dir(dir_path)` with the
name `os` bound (see `mi_import_module_from_path`); the as-written
behaviour is `mi_import_modules_from_dir_as_written` below. -/
def mi_import_modules_from_dir (w : World) (dir_path : String) (st : MiSt) :
    Except Err MiSt :=
  mi_import_files w dir_path (w.listDir dir_path) st

/-- `mi_import_module_from_path` as written in chassis2023.py: its first
statement `os.path.splitext(os.path.basename(module_path))` (line 218)
evaluates the name `os`, which the module never imports, so every call
raises NameError("os") before anything is loaded (the raise is outside
the try block, and the except clause catches only ModuleNotFoundError). -/
def mi_import_module_from_path_as_written (_module_path : String) (_st : MiSt) :
    Except Err MiSt :=
  .error (.NameError "os")

/-- `mi_import_modules_from_dir` as written in chassis2023.py: its first
statement `os.listdir(dir_path)` (line 234) evaluates the unbound name
`os`, so every call raises NameError("os") before any file is enumerated,
loaded, or queued. -/
def mi_import_modules_from_dir_as_written (_dir_path : String) (_st : MiSt) :
    Except Err MiSt :=
  .error (.NameError "os")

/-- Models `mi_register_one(kind, s)`: queue an address unless it is already
pending or already processed, recording `g[MI_SRC]` as its provenance. -/
def mi_register_one (kind : MiKind) (s : String) (st : MiSt) : MiSt :=
  if (kind, s) ∈ st.toprocess then st
  else if (kind, s) ∈ st.processed then st
  else { st with
    toprocess := st.toprocess ++ [(kind, s)],
    sources := st.sources ++ [((kind, s), st.misrc)] }

/-- Models `mi_register_to_process(spec, source_desc)`: set `g[MI_SRC]`, then
queue the spec's DIRS, FILES and NAMES lists in that order. -/
def mi_register_to_process (spec : ModSpec) (src : Prov) (st : MiSt) : MiSt :=
  let st1 : MiSt := { st with misrc := src }
  let st2 := spec.dirs.foldl (fun st p => mi_register_one MiKind.DIR p st) st1
  let st3 := spec.files.foldl (fun st p => mi_register_one MiKind.FILE p st) st2
  spec.names.foldl (fun st n => mi_register_one MiKind.NAME n st) st3

/-- Models `mi_dispatch_processing(kind, s)` over the idealized FILE/DIR
loaders. -/
def mi_dispatch_processing (w : World) (kind : MiKind) (s : String) (st : MiSt) :
    Except Err MiSt :=
  match kind with
  | .NAME => mi_import_module_from_name w s st
  | .FILE => mi_import_module_from_path w s st
  | .DIR => mi_import_modules_from_dir w s st

/-- Models `mi_dispatch_processing(kind, s)` over the FILE/DIR loaders as
written (unbound `os`): every FILE or DIR dispatch raises NameError. -/
def mi_dispatch_processing_as_written (w : World) (kind : MiKind) (s : String)
    (st : MiSt) : Except Err MiSt :=
  match kind with
  | .NAME => mi_import_module_from_name w s st
  | .FILE => mi_import_module_from_path_as_written s st
  | .DIR => mi_import_modules_from_dir_as_written s st

/-- Models `mi_rollover_toprocess()`: pop the top worklist entry onto the
processed list (the loop guard ensures the worklist is non-empty). -/
def mi_rollover_toprocess (st : MiSt) : MiSt :=
  match st.toprocess.getLast? with
  | none => st
  | some tup =>
    { st with toprocess := st.toprocess.dropLast, processed := st.processed ++ [tup] }

/-- The cascade step that mines every recently registered module's
metadata for further declared sub-addresses, then clears the batch. -/
def mi_mine_recent (st : MiSt) : MiSt :=
  let st2 := st.recently.foldl
    (fun acc mod => mi_register_to_process (modinfo_spec mod) (Prov.frommod mod) acc)
    st
  { st2 with recently := [] }

/-- Models `mi_cascade_processing()`: the worklist loop — while addresses remain,
dispatch the top one, roll it over to the processed list, then mine the
newly registered modules for cascading sub-addresses.  The loop is a
fixed-point computation; `fuel` bounds the number of iterations of the
model (the source's while-loop runs until the worklist drains). -/
def mi_cascade_processing (w : World) : Nat → MiSt → Except Err MiSt
  | 0, st => .ok st
  | fuel + 1, st =>
    match st.toprocess.getLast? with
    | none => .ok st
    | some (kind, s) =>
      match mi_dispatch_processing w kind s st with
      | .error e => .error e
      | .ok st2 =>
        mi_cascade_processing w fuel (mi_mine_recent (mi_rollover_toprocess st2))

/-- The cascade loop over the as-written dispatch: identical shape to
`mi_cascade_processing`, but FILE/DIR resolution raises NameError. -/
def mi_cascade_processing_as_written (w : World) : Nat → MiSt → Except Err MiSt
  | 0, st => .ok st
  | fuel + 1, st =>
    match st.toprocess.getLast? with
    | none => .ok st
    | some (kind, s) =>
      match mi_dispatch_processing_as_written w kind s st with
      | .error e => .error e
      | .ok st2 =>
        mi_cascade_processing_as_written w fuel
          (mi_mine_recent (mi_rollover_toprocess st2))

lemma mi_register_one_modules (kind : MiKind) (s : String) (st : MiSt) :
    (mi_register_one kind s st).modules = st.modules := by
  by_cases h1 : (kind, s) ∈ st.toprocess
  · simp [mi_register_one, h1]
  · by_cases h2 : (kind, s) ∈ st.processed
    · simp [mi_register_one, h1, h2]
    · simp [mi_register_one, h1, h2]

lemma foldl_register_one_modules (k : MiKind) :
    ∀ (L : List String) (st : MiSt),
      (L.foldl (fun st p => mi_register_one k p st) st).modules = st.modules
  | [], _ => rfl
  | p :: rest, st => by
    rw [List.foldl_cons, foldl_register_one_modules k rest _,
      mi_register_one_modules]

lemma mi_register_to_process_modules (spec : ModSpec) (src : Prov) (st : MiSt) :
    (mi_register_to_process spec src st).modules = st.modules := by
  unfold mi_register_to_process
  rw [foldl_register_one_modules, foldl_register_one_modules,
    foldl_register_one_modules]

lemma foldl_register_to_process_modules :
    ∀ (L : List PyModule) (st : MiSt),
      (L.foldl (fun acc mod =>
        mi_register_to_process (modinfo_spec mod) (Prov.frommod mod) acc)
        st).modules = st.modules
  | [], _ => rfl
  | m :: rest, st => by
    rw [List.foldl_cons, foldl_register_to_process_modules rest _,
      mi_register_to_process_modules]

lemma mi_mine_recent_modules (st : MiSt) :
    (mi_mine_recent st).modules = st.modules := by
  unfold mi_mine_recent
  rw [foldl_register_to_process_modules]

lemma mi_rollover_modules (st : MiSt) :
    (mi_rollover_toprocess st).modules = st.modules := by
  unfold mi_rollover_toprocess
  cases st.toprocess.getLast? with
  | none => rfl
  | some tup => rfl

lemma mi_register_module_nodup (m : PyModule) (st : MiSt)
    (h : st.modules.Nodup) : (mi_register_module m st).modules.Nodup := by
  unfold mi_register_module
  by_cases hm : m ∈ st.modules
  · rw [if_pos hm]
    exact h
  · rw [if_neg hm]
    show (st.modules ++ [m]).Nodup
    rw [List.nodup_append]
    refine ⟨h, List.nodup_singleton m, ?_⟩
    intro a ha hb
    simp only [List.mem_singleton] at hb
    subst hb
    exact hm ha

lemma mi_register_module_toprocess (m : PyModule) (st : MiSt) :
    (mi_register_module m st).toprocess = st.toprocess := by
  unfold mi_register_module
  by_cases hm : m ∈ st.modules
  · rw [if_pos hm]
  · rw [if_neg hm]

lemma mi_register_module_processed (m : PyModule) (st : MiSt) :
    (mi_register_module m st).processed = st.processed := by
  unfold mi_register_module
  by_cases hm : m ∈ st.modules
  · rw [if_pos hm]
  · rw [if_neg hm]

lemma mi_register_module_mem_self (m : PyModule) (st : MiSt) :
    m ∈ (mi_register_module m st).modules := by
  unfold mi_register_module
  by_cases hm : m ∈ st.modules
  · rw [if_pos hm]
    exact hm
  · rw [if_neg hm]
    show m ∈ st.modules ++ [m]
    simp

lemma mi_register_module_mem_mono (m a : PyModule) (st : MiSt)
    (h : a ∈ st.modules) : a ∈ (mi_register_module m st).modules := by
  unfold mi_register_module
  by_cases hm : m ∈ st.modules
  · rw [if_pos hm]
    exact h
  · rw [if_neg hm]
    show a ∈ st.modules ++ [m]
    exact List.mem_append_left _ h

lemma mi_from_name_cases (w : World) (name : String) (st st2 : MiSt)
    (h : mi_import_module_from_name w name st = .ok st2) :
    ∃ m, w.byName name = some m ∧ st2 = mi_register_module m st := by
  unfold mi_import_module_from_name at h
  cases hw : w.byName name with
  | some m =>
    rw [hw] at h
    exact ⟨m, rfl, (Except.ok.inj h).symm⟩
  | none =>
    rw [hw] at h
    cases hsl : srcLookup st (MiKind.NAME, name) with
    | some src =>
      rw [hsl] at h
      exact Except.noConfusion h
    | none =>
      rw [hsl] at h
      exact Except.noConfusion h

lemma mi_from_path_cases (w : World) (p : String) (st st2 : MiSt)
    (h : mi_import_module_from_path w p st = .ok st2) :
    ∃ m, w.byFile p = some m ∧ st2 = mi_register_module m st := by
  unfold mi_import_module_from_path at h
  cases hw : w.byFile p with
  | some m =>
    rw [hw] at h
    exact ⟨m, rfl, (Except.ok.inj h).symm⟩
  | none =>
    rw [hw] at h
    exact Except.noConfusion h

lemma mi_import_files_props (w : World) (dir : String) :
    ∀ (L : List String) (st st2 : MiSt),
      mi_import_files w dir L st = .ok st2 →
      st2.toprocess = st.toprocess ∧
      st2.processed = st.processed ∧
      (∀ a ∈ st.modules, a ∈ st2.modules) ∧
      (st.modules.Nodup → st2.modules.Nodup) ∧
      (∀ fn ∈ L, eligible_module_file fn = true →
        ∀ m, w.byFile (dir ++ "/" ++ fn) = some m → m ∈ st2.modules)
  | [], st, st2, h => by
    have hst := (Except.ok.inj h).symm
    subst hst
    exact ⟨rfl, rfl, fun a ha => ha, fun hn => hn, fun fn hfn => absurd hfn (List.not_mem_nil fn)⟩
  | fn :: rest, st, st2, h => by
    rw [mi_import_files] at h
    by_cases he : eligible_module_file fn = true
    · rw [if_pos he] at h
      cases hfp : mi_import_module_from_path w (dir ++ "/" ++ fn) st with
      | error e =>
        rw [hfp] at h
        exact Except.noConfusion h
      | ok st1 =>
        rw [hfp] at h
        obtain ⟨m, hwm, hst1⟩ := mi_from_path_cases w _ st st1 hfp
        obtain ⟨ht, hp, hmono, hnd, hfiles⟩ := mi_import_files_props w dir rest st1 st2 h
        subst hst1
        refine ⟨by rw [ht, mi_register_module_toprocess],
          by rw [hp, mi_register_module_processed],
          fun a ha => hmono a (mi_register_module_mem_mono m a st ha),
          fun hn => hnd (mi_register_module_nodup m st hn), ?_⟩
        intro fn2 hfn2 he2 m2 hm2
        rcases List.mem_cons.mp hfn2 with hfn2 | hfn2
        · subst hfn2
          rw [hwm] at hm2
          have hm2' := (Option.some.inj hm2).symm
          subst hm2'
          exact hmono m2 (mi_register_module_mem_self m2 st)
        · exact hfiles fn2 hfn2 he2 m2 hm2
    · rw [if_neg he] at h
      obtain ⟨ht, hp, hmono, hnd, hfiles⟩ := mi_import_files_props w dir rest st st2 h
      refine ⟨ht, hp, hmono, hnd, ?_⟩
      intro fn2 hfn2 he2 m2 hm2
      rcases List.mem_cons.mp hfn2 with hfn2 | hfn2
      · subst hfn2
        exact absurd he2 he
      · exact hfiles fn2 hfn2 he2 m2 hm2

lemma mi_dispatch_nodup (w : World) (kind : MiKind) (s : String) (st st2 : MiSt)
    (h : mi_dispatch_processing w kind s st = .ok st2)
    (hn : st.modules.Nodup) : st2.modules.Nodup := by
  cases kind with
  | NAME =>
    obtain ⟨m, _, hst2⟩ := mi_from_name_cases w s st st2 h
    subst hst2
    exact mi_register_module_nodup m st hn
  | FILE =>
    obtain ⟨m, _, hst2⟩ := mi_from_path_cases w s st st2 h
    subst hst2
    exact mi_register_module_nodup m st hn
  | DIR =>
    exact (mi_import_files_props w s (w.listDir s) st st2 h).2.2.2.1 hn

lemma mi_cascade_nodup (w : World) :
    ∀ (fuel : Nat) (st st2 : MiSt),
      mi_cascade_processing w fuel st = .ok st2 →
      st.modules.Nodup → st2.modules.Nodup
  | 0, st, st2, h, hn => (Except.ok.inj h) ▸ hn
  | fuel + 1, st, st2, h, hn => by
    rw [mi_cascade_processing] at h
    cases hl : st.toprocess.getLast? with
    | none =>
      simp only [hl] at h
      exact (Except.ok.inj h) ▸ hn
    | some tup =>
      obtain ⟨kind, s⟩ := tup
      simp only [hl] at h
      cases hd : mi_dispatch_processing w kind s st with
      | error e =>
        simp only [hd] at h
        exact Except.noConfusion h
      | ok st3 =>
        simp only [hd] at h
        have hn3 := mi_dispatch_nodup w kind s st st3 hd hn
        have hn4 : (mi_mine_recent (mi_rollover_toprocess st3)).modules.Nodup := by
          rw [mi_mine_recent_modules, mi_rollover_modules]
          exact hn3
        exact mi_cascade_nodup w fuel _ st2 h hn4

/-- C1: the discovery engine deduplicates both by address and by object
identity: `mi_register_one` is a no-op for an address already pending on
the worklist or already processed; `mi_register_module` is a no-op for a
module object already registered (identity comparison); and every cascade
run from a duplicate-free modules list (in particular every run from the
initial empty list) ends with a duplicate-free modules list — the same
module object is never listed twice however many addresses led to it. -/
theorem C1_discovery_dedup (st : MiSt) (kind : MiKind) (s : String)
    (m : PyModule) (w : World) (fuel : Nat) (st2 : MiSt) :
    (((kind, s) ∈ st.toprocess ∨ (kind, s) ∈ st.processed) →
      mi_register_one kind s st = st) ∧
    (m ∈ st.modules → mi_register_module m st = st) ∧
    (st.modules.Nodup → mi_cascade_processing w fuel st = Except.ok st2 →
      st2.modules.Nodup) := by
  refine ⟨?_, ?_, ?_⟩
  · rintro (h | h)
    · simp [mi_register_one, h]
    · by_cases h1 : (kind, s) ∈ st.toprocess
      · simp [mi_register_one, h1]
      · simp [mi_register_one, h1, h]
  · intro h
    simp [mi_register_module, h]
  · intro hn h
    exact mi_cascade_nodup w fuel st st2 h hn

/-- Module `b`: no metadata. -/
def c1mB : PyModule := ⟨11, "b", none, false, false, false⟩

/-- Module `a`: declares the sub-address NAME "b". -/
def c1mA : PyModule := ⟨10, "a", some ⟨⟨["b"], [], []⟩, some "A", []⟩, false, true, false⟩

/-- Resolution environment of the spec's cascade scenario: names "a" and
"b" resolve, nothing else. -/
def c1world : World :=
  ⟨fun n => if n = "a" then some c1mA else if n = "b" then some c1mB else none,
   fun _ => none,
   fun _ => []⟩

/-- Intake state seeded with the address NAME "a" from programdata. -/
def c1st0 : MiSt :=
  ⟨[(MiKind.NAME, "a")], [], [], [],
   [((MiKind.NAME, "a"), Prov.desc "programdata.json")],
   Prov.desc "programdata.json"⟩

/-- The state the cascade reaches from `c1st0`: both modules registered
once each, both addresses processed. -/
def c1final : MiSt :=
  ⟨[], [(MiKind.NAME, "a"), (MiKind.NAME, "b")], [c1mA, c1mB], [],
   [((MiKind.NAME, "a"), Prov.desc "programdata.json"),
    ((MiKind.NAME, "b"), Prov.frommod c1mA)],
   Prov.frommod c1mB⟩

theorem C1_discovery_dedup_witness :
    mi_register_one MiKind.NAME "a" c1st0 = c1st0 ∧
    mi_register_module c1mA c1final = c1final ∧
    c1final.modules.Nodup :=
  ⟨(C1_discovery_dedup c1st0 MiKind.NAME "a" c1mA c1world 3 c1final).1
      (Or.inl (by decide)),
   (C1_discovery_dedup c1final MiKind.NAME "a" c1mA c1world 3 c1final).2.1
      (by decide),
   (C1_discovery_dedup c1st0 MiKind.NAME "a" c1mA c1world 3 c1final).2.2
      (by decide) rfl⟩

/-- A module living in file d/m.py. -/
def c2mM : PyModule := ⟨21, "m", none, false, false, false⟩

/-- A world with one directory "d" containing an eligible file m.py and an
ineligible file notes.txt. -/
def c2world : World :=
  ⟨fun _ => none,
   fun p => if p = "d/m.py" then some c2mM else none,
   fun d => if d = "d" then ["m.py", "notes.txt"] else []⟩

/-- Intake state with the ByDirectory address (DIR, "d") on top of the
worklist. -/
def c2st0 : MiSt :=
  ⟨[(MiKind.DIR, "d")], [], [], [],
   [((MiKind.DIR, "d"), Prov.desc "programdata.json")],
   Prov.desc "programdata.json"⟩

/-- The successor state the claim would predict for dispatching
(DIR, "d"): the eligible file re-queued onto the worklist as a ByFile
address, nothing loaded yet. -/
def c2claimSt : MiSt :=
  ⟨[(MiKind.DIR, "d"), (MiKind.FILE, "d/m.py")], [], [], [],
   [((MiKind.DIR, "d"), Prov.desc "programdata.json")],
   Prov.desc "programdata.json"⟩

/-- C2 counterexample: the claim says resolving a ByDirectory address
enumerates the directory's eligible files and re-queues each onto the
worklist as a ByFile address, to be popped and resolved later.  In the
source, chassis2023.py never imports os, so `mi_import_modules_from_dir`
raises NameError at its first statement `os.listdir(dir_path)`:
dispatching (DIR, "d") aborts with NameError("os") — it yields no
successor state at all, in particular not the claim's state with
(FILE, "d/m.py") re-queued, and no file is ever popped, resolved, or
moved to the processed set. -/
theorem C2_bydirectory_counterexample :
    mi_dispatch_processing_as_written c2world MiKind.DIR "d" c2st0 =
      Except.error (Err.NameError "os") ∧
    mi_dispatch_processing_as_written c2world MiKind.DIR "d" c2st0 ≠
      Except.ok c2claimSt :=
  ⟨rfl, fun h => Except.noConfusion h⟩

/-- C2 as amended: for every ByDirectory address popped from the
worklist, the resolution step fails unconditionally with NameError —
chassis2023.py uses os.listdir in `mi_import_modules_from_dir` and
os.path in `mi_import_module_from_path` but never imports os — so no
directory is enumerated, no file is loaded or re-queued as a ByFile
address (ByFile resolution raises the same NameError), and the discovery
cascade aborts at the first ByDirectory address it pops. -/
theorem C2_bydirectory_raises_nameerror (w : World) (p : String) (st : MiSt)
    (fuel : Nat) :
    mi_import_modules_from_dir_as_written p st = Except.error (Err.NameError "os") ∧
    mi_import_module_from_path_as_written p st = Except.error (Err.NameError "os") ∧
    mi_dispatch_processing_as_written w MiKind.DIR p st =
      Except.error (Err.NameError "os") ∧
    (st.toprocess.getLast? = some (MiKind.DIR, p) →
      mi_cascade_processing_as_written w (fuel + 1) st =
        Except.error (Err.NameError "os")) := by
  refine ⟨rfl, rfl, rfl, ?_⟩
  intro h
  rw [mi_cascade_processing_as_written]
  simp only [h]
  rfl

theorem C2_bydirectory_raises_nameerror_witness :
    mi_import_modules_from_dir_as_written "d" c2st0 =
      Except.error (Err.NameError "os") ∧
    mi_import_module_from_path_as_written "d" c2st0 =
      Except.error (Err.NameError "os") ∧
    mi_dispatch_processing_as_written c2world MiKind.DIR "d" c2st0 =
      Except.error (Err.NameError "os") ∧
    mi_cascade_processing_as_written c2world (0 + 1) c2st0 =
      Except.error (Err.NameError "os") :=
  ⟨(C2_bydirectory_raises_nameerror c2world "d" c2st0 0).1,
   (C2_bydirectory_raises_nameerror c2world "d" c2st0 0).2.1,
   (C2_bydirectory_raises_nameerror c2world "d" c2st0 0).2.2.1,
   (C2_bydirectory_raises_nameerror c2world "d" c2st0 0).2.2.2 rfl⟩

-- --[ symbol interlink ]-----------------------------------------------

/-- Helper for Python str.split(): split the character list on whitespace
runs, dropping empty pieces; `acc` holds the current word reversed. -/
def splitWsAux : List Char → List Char → List String
  | [], [] => []
  | [], acc => [String.mk acc.reverse]
  | c :: rest, acc =>
    if c.isWhitespace then
      match acc with
      | [] => splitWsAux rest []
      | _ => String.mk acc.reverse :: splitWsAux rest []
    else splitWsAux rest (c :: acc)

/-- Models `intern_symbols(s)` for an actual string s: `s.split()` (interning has
no observable effect in the model). -/
def intern_symbols (s : String) : List String :=
  splitWsAux s.data []

/-- The `symbols_from_module` dict: module name -> interned vocabulary. -/
abbrev Registry := List (String × List String)

def regGet (r : Registry) (k : String) : Option (List String) :=
  (r.find? (fun p => p.1 == k)).map Prod.snd

def regSet : Registry → String → List String → Registry
  | [], k, v => [(k, v)]
  | p :: rest, k, v => if p.1 == k then (k, v) :: rest else p :: regSet rest k v

/-- Pass 1 of `inject_module_symbols`: for every module in order, intern
its declared SYMBOLS string and record the vocabulary under the module's
name.  A module whose metadata block is absent or lacks SYMBOLS makes the
lookup yield None and `None.split()` raise AttributeError: the pass aborts
there, the error carrying the registry state at the abort (the attribute
injections themselves are not modelled). -/
def inject_pass1 : List PyModule → Registry → Except Registry Registry
  | [], reg => .ok reg
  | mod :: rest, reg =>
    match modinfo_symbols mod with
    | none => .error reg
    | some s => inject_pass1 rest (regSet reg mod.name (intern_symbols s))

/-- One module's IMPORTSYMBOLS requests in pass 2:
`symbols_from_module[req]` raises KeyError for an unregistered name. -/
def inject_requests (reg : Registry) : List String → Except Err Unit
  | [] => .ok ()
  | r :: rest =>
    match regGet reg r with
    | none => .error .KeyError
    | some _ => inject_requests reg rest

/-- Pass 2 of `inject_module_symbols`: resolve every module's
IMPORTSYMBOLS requests against the registry populated by pass 1. -/
def inject_pass2 (reg : Registry) : List PyModule → Except Err Unit
  | [] => .ok ()
  | mod :: rest =>
    match inject_requests reg (modinfo_importsymbols mod) with
    | .error e => .error e
    | .ok _ => inject_pass2 reg rest

/-- Models `inject_module_symbols()`: pass 1 over all modules, then pass 2.  An
error carries the registry state when the exception propagates. -/
def inject_module_symbols (mods : List PyModule) (reg0 : Registry) :
    Except Registry Registry :=
  match inject_pass1 mods reg0 with
  | .error reg => .error reg
  | .ok reg =>
    match inject_pass2 reg mods with
    | .error _ => .error reg
    | .ok _ => .ok reg

/-- Whether an Except computation succeeded. -/
def exOk {ε α : Type} : Except ε α → Bool
  | .ok _ => true
  | .error _ => false

lemma inject_pass1_isOk :
    ∀ (mods : List PyModule) (reg : Registry),
      exOk (inject_pass1 mods reg) = true ↔
        ∀ m ∈ mods, (modinfo_symbols m).isSome = true
  | [], reg => by simp [inject_pass1, exOk]
  | mod :: rest, reg => by
    cases hs : modinfo_symbols mod with
    | none =>
      constructor
      · intro h
        exact absurd h (by simp [inject_pass1, hs, exOk])
      · intro h
        have hmod := h mod (List.mem_cons_self mod rest)
        rw [hs] at hmod
        exact absurd hmod (by simp)
    | some s =>
      have hstep : inject_pass1 (mod :: rest) reg =
          inject_pass1 rest (regSet reg mod.name (intern_symbols s)) := by
        simp [inject_pass1, hs]
      rw [hstep, inject_pass1_isOk rest _]
      constructor
      · intro h m hm
        rcases List.mem_cons.mp hm with hm2 | hm2
        · subst hm2
          simp [hs]
        · exact h m hm2
      · intro h m hm
        exact h m (List.mem_cons_of_mem mod hm)

lemma inject_pass1_append :
    ∀ (pre rest : List PyModule) (reg r : Registry),
      inject_pass1 pre reg = .ok r →
      inject_pass1 (pre ++ rest) reg = inject_pass1 rest r
  | [], rest, reg, r, h => by
    rw [List.nil_append]
    have hr : reg = r := Except.ok.inj h
    rw [hr]
  | mod :: pre, rest, reg, r, h => by
    rw [List.cons_append]
    cases hs : modinfo_symbols mod with
    | none =>
      rw [inject_pass1] at h
      simp only [hs] at h
      exact Except.noConfusion h
    | some s =>
      rw [inject_pass1] at h
      simp only [hs] at h
      have hstep : inject_pass1 ((mod :: pre) ++ rest) reg =
          inject_pass1 (pre ++ rest) (regSet reg mod.name (intern_symbols s)) := by
        simp [inject_pass1, hs]
      rw [List.cons_append] at hstep
      rw [hstep]
      exact inject_pass1_append pre rest _ r h

lemma inject_requests_ok (reg : Registry) :
    ∀ L : List String, inject_requests reg L = .ok () ↔
      ∀ r ∈ L, (regGet reg r).isSome = true
  | [] => by simp [inject_requests]
  | r :: rest => by
    cases hg : regGet reg r with
    | none =>
      constructor
      · intro h
        rw [inject_requests] at h
        simp only [hg] at h
        exact Except.noConfusion h
      · intro h
        have hr := h r (List.mem_cons_self r rest)
        rw [hg] at hr
        exact absurd hr (by simp)
    | some v =>
      have hstep : inject_requests reg (r :: rest) = inject_requests reg rest := by
        simp [inject_requests, hg]
      rw [hstep, inject_requests_ok reg rest]
      constructor
      · intro h r2 hr2
        rcases List.mem_cons.mp hr2 with hr3 | hr3
        · subst hr3
          simp [hg]
        · exact h r2 hr3
      · intro h r2 hr2
        exact h r2 (List.mem_cons_of_mem r hr2)

lemma inject_pass2_ok (reg : Registry) :
    ∀ mods : List PyModule, inject_pass2 reg mods = .ok () ↔
      ∀ m ∈ mods, ∀ r ∈ modinfo_importsymbols m, (regGet reg r).isSome = true
  | [] => by simp [inject_pass2]
  | mod :: rest => by
    cases hq : inject_requests reg (modinfo_importsymbols mod) with
    | error e =>
      constructor
      · intro h
        rw [inject_pass2] at h
        simp only [hq] at h
        exact Except.noConfusion h
      · intro h
        have hmod : inject_requests reg (modinfo_importsymbols mod) = .ok () :=
          (inject_requests_ok reg _).mpr (h mod (List.mem_cons_self mod rest))
        rw [hq] at hmod
        exact Except.noConfusion hmod
    | ok u =>
      obtain rfl : u = () := rfl
      have hstep : inject_pass2 reg (mod :: rest) = inject_pass2 reg rest := by
        simp [inject_pass2, hq]
      rw [hstep, inject_pass2_ok reg rest]
      constructor
      · intro h m hm
        rcases List.mem_cons.mp hm with hm2 | hm2
        · subst hm2
          exact (inject_requests_ok reg _).mp hq
        · exact h m hm2
      · intro h m hm
        exact h m (List.mem_cons_of_mem mod hm)

/-- C10 as amended: a module whose metadata block is absent or lacks a
SYMBOLS entry aborts pass 1 of the interlink — at the first such module,
with exactly the earlier modules' vocabularies already registered — so
interlink completes without error iff every module declares a SYMBOLS
vocabulary and every IMPORTSYMBOLS request names a key of the registry as
it stands after pass 1, which holds the vocabularies registered in pass 1
together with any entries already present before interlink (notably the
chassis's own vocabulary registered at setup). -/
theorem C10_interlink_requires_symbols (mods : List PyModule) (reg0 : Registry) :
    ((∀ m ∈ mods, (modinfo_symbols m).isSome = true) ↔
      exOk (inject_pass1 mods reg0) = true) ∧
    (∀ (pre post : List PyModule) (bad : PyModule) (r : Registry),
      mods = pre ++ bad :: post → modinfo_symbols bad = none →
      inject_pass1 pre reg0 = Except.ok r →
      inject_module_symbols mods reg0 = Except.error r) ∧
    (∀ reg : Registry, inject_module_symbols mods reg0 = Except.ok reg ↔
      (inject_pass1 mods reg0 = Except.ok reg ∧
       ∀ m ∈ mods, ∀ r2 ∈ modinfo_importsymbols m,
         (regGet reg r2).isSome = true)) := by
  refine ⟨(inject_pass1_isOk mods reg0).symm, ?_, ?_⟩
  · intro pre post bad r hmods hbad hpre
    subst hmods
    have h1 : inject_pass1 (pre ++ bad :: post) reg0 = .error r := by
      rw [inject_pass1_append pre (bad :: post) reg0 r hpre]
      simp [inject_pass1, hbad]
    simp [inject_module_symbols, h1]
  · intro reg
    unfold inject_module_symbols
    cases hp1 : inject_pass1 mods reg0 with
    | error r =>
      simp only []
      constructor
      · intro h
        exact absurd h (by simp)
      · intro h
        exact absurd h.1 (by simp)
    | ok r =>
      simp only []
      cases hp2 : inject_pass2 r mods with
      | error e =>
        simp only []
        constructor
        · intro h
          exact absurd h (by simp)
        · intro h
          have hreg : r = reg := Except.ok.inj h.1
          subst hreg
          have hok : inject_pass2 r mods = .ok () :=
            (inject_pass2_ok r mods).mpr h.2
          rw [hp2] at hok
          exact Except.noConfusion hok
      | ok u =>
        obtain rfl : u = () := rfl
        simp only []
        constructor
        · intro h
          have hreg : r = reg := Except.ok.inj h
          subst hreg
          exact ⟨rfl, (inject_pass2_ok r mods).mp hp2⟩
        · intro h
          have hreg : r = reg := Except.ok.inj h.1
          rw [hreg]

/-- A module declaring SYMBOLS "A B" and requesting the chassis's own
vocabulary via IMPORTSYMBOLS. -/
def c10mX : PyModule :=
  ⟨31, "x", some ⟨⟨[], [], []⟩, some "A B", ["chassis2023"]⟩, false, false, false⟩

/-- The registry as `setup_symbols()` leaves it before discovery and
interlink: the chassis's own vocabulary is already registered (shortened
here to two of its symbols). -/
def c10reg0 : Registry := [("chassis2023", ["PROGRAMDATA", "APPID"])]

/-- The registry after pass 1 over `[c10mX]` from `c10reg0`. -/
def c10reg1 : Registry :=
  [("chassis2023", ["PROGRAMDATA", "APPID"]), ("x", ["A", "B"])]

/-- C10 counterexample: the claim says interlink completes without error
only if every import request names a module whose vocabulary was
registered in pass 1.  With the chassis's own vocabulary pre-registered at
setup, a module requesting IMPORTSYMBOLS ["chassis2023"] interlinks
without error even though "chassis2023" is not the name of any module of
the module list, so its vocabulary was not registered in pass 1. -/
theorem C10_interlink_counterexample :
    inject_module_symbols [c10mX] c10reg0 = Except.ok c10reg1 ∧
    "chassis2023" ∉ [c10mX].map (fun m => m.name) := by
  refine ⟨rfl, by decide⟩

/-- A module with no metadata block at all. -/
def c10bad : PyModule := ⟨32, "bad", none, false, false, false⟩

theorem C10_interlink_requires_symbols_witness :
    inject_module_symbols [c10mX, c10bad] c10reg0 = Except.error c10reg1 :=
  (C10_interlink_requires_symbols [c10mX, c10bad] c10reg0).2.1 [c10mX] []
    c10bad c10reg1 rfl rfl rfl

end chassis2023
